import Mathlib

/-!
Shallow embedding of the SID player engine of `discourse-sid-preview`
(src/assets/javascripts/discourse/lib/sid-player-engine.js, class `SIDEngine`).

Modelling conventions:
* JavaScript numbers are modelled as exact rationals (`ℚ`); integer-valued
  registers and memory bytes as `Nat` / `Int`.  Where the source can produce
  the IEEE special values `Infinity` / `NaN` (the pulse-waveform step
  computation divides by a value that can be zero), the computation is carried
  out over the extended type `JSNum` that has explicit `pinf`/`ninf`/`nan`
  constructors with the JavaScript coercion rules.
* The 64KB `Uint8Array` memory is a total function `Nat → Nat`; every write
  masks the stored value modulo 256 exactly as the typed array does.  A read
  beyond index 65535 yields `undefined` in JavaScript; the model returns the
  function value there (always 0 for states built from a fresh engine); no
  claim exercises that corner.
* `Math.random()` is an explicit per-call input of `play`; `Math.exp` and the
  fractional-exponent `Math.pow` used by the filter are fields of a `JSEnv`
  parameter, so that every engine-level function is a pure total function.
-/

set_option maxHeartbeats 2000000

namespace SIDSpec

/-- 64KB memory image of the engine (`this._memory`, a `Uint8Array(65536)`). -/
abbrev Mem : Type := Nat → Nat

/-- Store into the memory image.  `Uint8Array` element assignment converts the
stored value modulo 256. -/
def wr (m : Mem) (a v : Nat) : Mem := fun j => if j = a then v % 256 else m j

/-- Pointwise update of a `Nat`-indexed family (models assignment into the
engine's `Float64Array` per-voice state arrays). -/
def upd {α : Type} (f : Nat → α) (i : Nat) (v : α) : Nat → α :=
  fun j => if j = i then v else f j

/-- Floor of a rational, computed with natural division (kernel-reducible,
unlike the `FloorRing` instance; see `qFloor_eq_floor`). -/
def qFloor (q : ℚ) : Int :=
  if 0 ≤ q.num then ((q.num.toNat / q.den : Nat) : Int)
  else -((((-q.num).toNat + q.den - 1) / q.den : Nat) : Int)

/-- Ceiling of a rational, computed with natural division. -/
def qCeil (q : ℚ) : Int := -(qFloor (-q))

/-- JavaScript truncation toward zero (the first step of `ToInt32`). -/
def truncQ (q : ℚ) : Int :=
  if 0 ≤ q.num then ((q.num.toNat / q.den : Nat) : Int)
  else -(((-q.num).toNat / q.den : Nat) : Int)

/-- Final step of `ToUint32`: reduce an integer modulo 2^32. -/
def toU32 (x : Int) : Nat := (x.emod 4294967296).toNat

/-- JavaScript `q & m` for a rational left operand and a mask `m < 2^31`. -/
def qAnd (q : ℚ) (m : Nat) : Nat := toU32 (truncQ q) &&& m

/-- JavaScript `q ^ m` (bitwise xor) for a rational left operand. -/
def qXor (q : ℚ) (m : Nat) : Nat := toU32 (truncQ q) ^^^ m

/-- JavaScript `q >> k` for a non-negative rational left operand. -/
def qShr (q : ℚ) (k : Nat) : Nat := toU32 (truncQ q) >>> k

/-- JavaScript `x & m` for a signed integer left operand (two's complement). -/
def iAnd (x : Int) (m : Nat) : Nat := toU32 x &&& m

/-- Booleans coerced to JavaScript numbers (`true → 1`, `false → 0`). -/
def b2n (b : Bool) : Nat := if b then 1 else 0

/-- Extended JavaScript number: a finite rational or one of the IEEE special
values.  Used where the source can produce `Infinity`/`NaN` (division by a
possibly-zero divisor in the pulse waveform). -/
inductive JSNum : Type where
  | fin (q : ℚ)
  | pinf
  | ninf
  | nan
deriving DecidableEq

namespace JSNum

/-- Whether the value is an ordinary (finite) number. -/
def isFinite : JSNum → Bool
  | fin _ => true
  | _ => false

/-- Extract the rational value, 0 for the special values (used only after the
value has been proven finite). -/
def toQ0 : JSNum → ℚ
  | fin q => q
  | _ => 0

/-- IEEE addition on extended numbers (exact on finite values). -/
def add : JSNum → JSNum → JSNum
  | nan, _ => nan
  | _, nan => nan
  | fin a, fin b => fin (a + b)
  | pinf, ninf => nan
  | ninf, pinf => nan
  | pinf, _ => pinf
  | _, pinf => pinf
  | ninf, _ => ninf
  | _, ninf => ninf

/-- IEEE subtraction on extended numbers. -/
def sub : JSNum → JSNum → JSNum
  | nan, _ => nan
  | _, nan => nan
  | fin a, fin b => fin (a - b)
  | pinf, pinf => nan
  | ninf, ninf => nan
  | pinf, _ => pinf
  | ninf, _ => ninf
  | fin _, pinf => ninf
  | fin _, ninf => pinf

/-- IEEE multiplication on extended numbers (`0 × ∞ = NaN`). -/
def mul : JSNum → JSNum → JSNum
  | nan, _ => nan
  | _, nan => nan
  | fin a, fin b => fin (a * b)
  | fin a, pinf => if a > 0 then pinf else if a < 0 then ninf else nan
  | fin a, ninf => if a > 0 then ninf else if a < 0 then pinf else nan
  | pinf, fin b => if b > 0 then pinf else if b < 0 then ninf else nan
  | ninf, fin b => if b > 0 then ninf else if b < 0 then pinf else nan
  | pinf, pinf => pinf
  | pinf, ninf => ninf
  | ninf, pinf => ninf
  | ninf, ninf => pinf

/-- IEEE division on extended numbers; a nonzero finite value divided by zero
gives a signed infinity, `0/0 = NaN`. -/
def div : JSNum → JSNum → JSNum
  | nan, _ => nan
  | _, nan => nan
  | fin a, fin b =>
      if b = 0 then (if a > 0 then pinf else if a < 0 then ninf else nan)
      else fin (a / b)
  | pinf, fin b => if b < 0 then ninf else pinf
  | ninf, fin b => if b < 0 then pinf else ninf
  | fin _, pinf => fin 0
  | fin _, ninf => fin 0
  | _, _ => nan

/-- IEEE `<` (false whenever an operand is `NaN`). -/
def lt : JSNum → JSNum → Bool
  | fin a, fin b => a < b
  | fin _, pinf => true
  | ninf, fin _ => true
  | ninf, pinf => true
  | _, _ => false

/-- IEEE `≤` (false whenever an operand is `NaN`). -/
def le : JSNum → JSNum → Bool
  | fin a, fin b => a ≤ b
  | fin _, pinf => true
  | ninf, fin _ => true
  | ninf, pinf => true
  | pinf, pinf => true
  | ninf, ninf => true
  | _, _ => false

/-- JavaScript `ToInt32`/`ToUint32` of an extended number masked by `m`:
`NaN` and the infinities convert to 0. -/
def jAnd (x : JSNum) (m : Nat) : Nat :=
  match x with
  | fin q => qAnd q m
  | _ => 0

end JSNum

/-- Host-environment functions the engine calls on `Math`: `exp`, and `pow`
with base 2 and a (possibly fractional) rational exponent.  The engine is a
pure function of this record, the per-call random samples and its state. -/
structure JSEnv : Type where
  exp : ℚ → ℚ
  pow2 : ℚ → ℚ

/-- A concrete environment used to instantiate witnesses (any computable
choice is valid: no claim depends on the values of `exp`/`pow`). -/
def envC : JSEnv := { exp := fun _ => 0, pow2 := fun _ => 0 }

/-- `_buildCombinedWF(wfa, bitmul, bstr, trh)`: entry `i` of a combined
waveform table, computed by the fixed bit-blending formula of the source
(the source materialises 4096-entry arrays in the constructor; the entries
are this pure function of the index). -/
def buildCombinedWF (bitmul bstr trh : ℚ) (i : Nat) : ℚ :=
  (((List.range 12).map (fun j =>
      let blvl : ℚ := ((List.range 12).map (fun k =>
        (bitmul / bstr ^ (max k j - min k j)) *
          ((if (i >>> k) &&& 1 = 1 then (1 : ℚ) else 0) - 1/2))).sum
      if blvl ≥ trh then ((2 : ℚ) ^ j) else 0)).sum) * 12

/-- `this._trsaw` combined triangle+sawtooth table. -/
def trsaw (i : Nat) : ℚ := buildCombinedWF (4/5) (12/5) (16/25) i

/-- `this._pusaw` combined pulse+sawtooth table. -/
def pusaw (i : Nat) : ℚ := buildCombinedWF (7/5) (19/10) (17/25) i

/-- `this._Pulsetrsaw` combined pulse+triangle+sawtooth table. -/
def Pulsetrsaw (i : Nat) : ℚ := buildCombinedWF (4/5) (5/2) (16/25) i

/-- `this._Aprd` ADSR rate-period table (entry 0 is `max(clk_ratio, 9)`). -/
def AprdTab (clk : ℚ) : List ℚ :=
  [max clk 9, 32, 63, 95, 149, 220, 267, 313, 392, 977, 1954, 3126, 3907,
   11720, 19532, 31251]

/-- `this._Astp` ADSR step table (entry 0 is `ceil(max(clk_ratio,9)/9)`). -/
def AstpTab (clk : ℚ) : List Int :=
  [qCeil ((max clk 9) / 9), 1, 1, 1, 1, 1, 1, 1, 1, 1, 1, 1, 1, 1, 1, 1]

/-- `this._Aexp` exponential-decay repeat-count table (254 entries, exactly as
listed in the source). -/
def AexpTab : List Nat :=
  1 :: (List.replicate 6 30 ++ List.replicate 8 16 ++ List.replicate 12 8 ++
    List.replicate 28 4 ++ List.replicate 39 2 ++ List.replicate 160 1)

/-- `this._flagsw` flag set/clear masks of the CPU. -/
def flagswTab : List Nat := [0x01, 0x21, 0x04, 0x24, 0x00, 0x40, 0x08, 0x28]

/-- `this._brf` branch-flag masks of the CPU. -/
def brfTab : List Nat := [0x80, 0x40, 0x01, 0x02]

/-- `this.FSW` per-channel filter-switch masks. -/
def FSWTab : List Nat := [1, 2, 4, 1, 2, 4, 1, 2, 4]

/-- `this.SIDamount_vol` per-chip-count attenuation table. -/
def SIDamountVol : List ℚ := [0, 1, 3/5, 2/5]

/-- Complete mutable state of one `SIDEngine` instance (fields in constructor
order; names follow the source with the leading underscore dropped). -/
structure SIDState : Type where
  sampleRate : ℚ
  backgroundNoise : ℚ
  title : Nat → Nat
  author : Nat → Nat
  info : Nat → Nat
  timermode : Nat → Nat
  loadaddr : Nat
  initaddr : Nat
  playaddf : Nat
  playaddr : Nat
  subtune : Nat
  subtune_amount : Nat
  playlength : Nat
  preferred_SID_model : Nat → ℚ
  SID_model : ℚ
  SID_address : Nat → Nat
  memory : Mem
  loaded : Bool
  initialized : Bool
  finished : Bool
  playtime : ℚ
  ended : Bool
  clk_ratio : ℚ
  frame_sampleperiod : ℚ
  framecnt : ℚ
  volume : ℚ
  CPUtime : ℚ
  pPC : Nat
  SIDamount : Nat
  mix : ℚ
  PC : Nat
  A : Nat
  T : Nat
  X : Nat
  Y : Nat
  SP : Nat
  IR : Nat
  addr : Nat
  ST : Nat
  cyc : Nat
  sta : Nat
  Ast : Nat → Nat
  rcnt : Nat → ℚ
  envcnt : Nat → Int
  expcnt : Nat → Nat
  pSR : Nat → Nat
  pacc : Nat → ℚ
  pracc : Nat → ℚ
  sMSBrise : Nat → Nat
  sMSB : Nat → Nat
  nLFSR : Nat → Nat
  prevwfout : Nat → ℚ
  pwv : Nat → ℚ
  plp : Nat → ℚ
  pbp : Nat → ℚ
  ctfr : ℚ
  ctf_ratio_6581 : ℚ
  output : ℚ

/-- The `SIDEngine` constructor: the state of a freshly constructed engine for
a given sample rate and background-noise amplitude. -/
def initialState (sampleRate backgroundNoise : ℚ) : SIDState :=
  { sampleRate := sampleRate
    backgroundNoise := backgroundNoise
    title := fun _ => 0
    author := fun _ => 0
    info := fun _ => 0
    timermode := fun _ => 0
    loadaddr := 0x1000
    initaddr := 0x1000
    playaddf := 0x1003
    playaddr := 0x1003
    subtune := 0
    subtune_amount := 1
    playlength := 0
    preferred_SID_model := fun _ => 8580
    SID_model := 8580
    SID_address := fun i => if i = 0 then 0xd400 else 0
    memory := fun _ => 0
    loaded := false
    initialized := false
    finished := false
    playtime := 0
    ended := false
    clk_ratio := 985248 / sampleRate
    frame_sampleperiod := sampleRate / 50
    framecnt := 1
    volume := 1
    CPUtime := 0
    pPC := 0
    SIDamount := 1
    mix := 0
    PC := 0
    A := 0
    T := 0
    X := 0
    Y := 0
    SP := 0xff
    IR := 0
    addr := 0
    ST := 0
    cyc := 0
    sta := 0
    Ast := fun _ => 0
    rcnt := fun _ => 0
    envcnt := fun _ => 0
    expcnt := fun _ => 0
    pSR := fun _ => 0
    pacc := fun _ => 0
    pracc := fun _ => 0
    sMSBrise := fun _ => 0
    sMSB := fun _ => 0
    nLFSR := fun _ => 0x7ffff8
    prevwfout := fun _ => 0
    pwv := fun _ => 0
    plp := fun _ => 0
    pbp := fun _ => 0
    ctfr := (-2 * (157/50) * (12500 / 256)) / sampleRate
    ctf_ratio_6581 := (-2 * (157/50) * (20000 / 256)) / sampleRate
    output := 0 }

/-- `ST &= 125; ST |= (!V)<<1 | (V&128)` — the zero/negative flag update the
CPU applies after most register transfers. -/
def flNZ (ST V : Nat) : Nat := (ST &&& 125) ||| (b2n (V = 0) <<< 1) ||| (V &&& 128)

/-- Result record of one `_CPU()` call: the new values the source writes back
to `this._PC` … `this._addr` plus the returned status code.  `PCo` is the
local `PC` before the trailing `PC++; PC &= 0xffff` (skipped when `early`,
i.e. on the RTS/RTI stack-underflow returns). -/
structure CpuRes : Type where
  mem : Mem
  PCo : Int
  A : Nat
  X : Nat
  Y : Nat
  SP : Nat
  ST : Nat
  cyc : Nat
  sta : Nat
  addr : Nat
  early : Bool
  status : Nat

/-- Sentinel for `this._addr = addr` when the local `addr` was never assigned
(JavaScript stores `undefined` there).  `0x10000` compares unequal to every
real address, exactly as `undefined === a` is false. -/
def addrUndef : Nat := 0x10000

/-- Addressing-mode switch of the odd-opcode (ALU) group: returns
`(addr, PC after operand fetch, cyc)`; the unmatched patterns leave `addr`
undefined in the source, which the following `addr &= 0xffff` turns into 0. -/
def addrOdd (M : Mem) (PC X Y IR : Nat) : Nat × Nat × Nat :=
  let lo5 := IR &&& 0x1f
  if lo5 = 1 ∨ lo5 = 3 then (M (M (PC+1) + X) + M (M (PC+1) + X + 1) * 256, PC+1, 6)
  else if lo5 = 0x11 ∨ lo5 = 0x13 then (M (M (PC+1)) + M (M (PC+1) + 1) * 256 + Y, PC+1, 6)
  else if lo5 = 0x19 ∨ lo5 = 0x1f then (M (PC+1) + M (PC+2) * 256 + Y, PC+2, 5)
  else if lo5 = 0x1d then (M (PC+1) + M (PC+2) * 256 + X, PC+2, 5)
  else if lo5 = 0xd ∨ lo5 = 0xf then (M (PC+1) + M (PC+2) * 256, PC+2, 4)
  else if lo5 = 0x15 then (M (PC+1) + X, PC+1, 4)
  else if lo5 = 5 ∨ lo5 = 7 then (M (PC+1), PC+1, 3)
  else if lo5 = 0x17 then (M (PC+1) + Y, PC+1, 4)
  else if lo5 = 9 ∨ lo5 = 0xb then (PC+1, PC+1, 2)
  else (0, PC, 2)

/-- Operation switch of the odd-opcode group (`IR & 0xe0`). -/
def opOdd (M : Mem) (addr A X IR : Nat) (ST : Nat) : Mem × Nat × Nat × Nat × Nat :=
  let hi3 := IR &&& 0xe0
  if hi3 = 0x60 then
    let T := A
    let A1 := A + M addr + (ST &&& 1)
    let ST1 := (ST &&& 20) ||| (A1 &&& 128) ||| b2n (A1 > 255)
    let A2 := A1 &&& 0xff
    let V := (if (T ^^^ M addr) &&& 0x80 = 0 then (T ^^^ A2) &&& 0x80 else 0) >>> 1
    (M, A2, X, ST1 ||| (b2n (A2 = 0) <<< 1) ||| V, 0)
  else if hi3 = 0xe0 then
    let T := A
    let Ai : Int := (A : Int) - M addr - b2n (ST &&& 1 = 0)
    let ST1 := (ST &&& 20) ||| iAnd Ai 128 ||| b2n (0 ≤ Ai)
    let A2 := iAnd Ai 0xff
    let V := (if (T ^^^ M addr) &&& 0x80 ≠ 0 then (T ^^^ A2) &&& 0x80 else 0) >>> 1
    (M, A2, X, ST1 ||| (b2n (A2 = 0) <<< 1) ||| V, 0)
  else if hi3 = 0xc0 then
    let Ti : Int := (A : Int) - M addr
    (M, A, X, (ST &&& 124) ||| (b2n (iAnd Ti 0xff = 0) <<< 1) ||| iAnd Ti 128 |||
      b2n (0 ≤ Ti), 0)
  else if hi3 = 0x00 then
    let A1 := A ||| M addr
    (M, A1, X, flNZ ST A1, 0)
  else if hi3 = 0x20 then
    let A1 := A &&& M addr
    (M, A1, X, flNZ ST A1, 0)
  else if hi3 = 0x40 then
    let A1 := A ^^^ M addr
    (M, A1, X, flNZ ST A1, 0)
  else if hi3 = 0xa0 then
    let A1 := M addr
    (M, A1, if IR &&& 3 = 3 then A1 else X, flNZ ST A1, 0)
  else
    (wr M addr (A &&& (if IR &&& 3 = 3 then X else 0xff)), A, X, ST, addr)

/-- Addressing-mode switch of the even-with-bit-1 opcode group. -/
def addrEv2 (M : Mem) (PC X Y IR : Nat) : Nat × Nat × Nat :=
  let lo5 := IR &&& 0x1f
  if lo5 = 0x1e then
    (M (PC+1) + M (PC+2) * 256 + (if IR &&& 0xc0 ≠ 0x80 then X else Y), PC+2, 5)
  else if lo5 = 0xe then (M (PC+1) + M (PC+2) * 256, PC+2, 4)
  else if lo5 = 0x16 then (M (PC+1) + (if IR &&& 0xc0 ≠ 0x80 then X else Y), PC+1, 4)
  else if lo5 = 6 then (M (PC+1), PC+1, 3)
  else if lo5 = 2 then (PC+1, PC+1, 2)
  else (0, PC, 2)

/-- Operation switch of the even-with-bit-1 group (`IR & 0xe0`; shifts,
increments/decrements, register transfers); returns
`(mem, A, X, SP, ST, cyc, sta)`. -/
def opEv2 (M : Mem) (addr A X SP ST IR cyc : Nat) :
    Mem × Nat × Nat × Nat × Nat × Nat × Nat :=
  let hi3 := IR &&& 0xe0
  if hi3 = 0x00 ∨ hi3 = 0x20 then
    let ST0 := if hi3 = 0x00 then ST &&& 0xfe else ST
    if IR &&& 0xf = 0xa then
      let A1 := (A <<< 1) + (ST0 &&& 1)
      let ST1 := (ST0 &&& 60) ||| (A1 &&& 128) ||| b2n (A1 > 255)
      let A2 := A1 &&& 0xff
      (M, A2, X, SP, ST1 ||| (b2n (A2 = 0) <<< 1), cyc, 0)
    else
      let T1 := (M addr <<< 1) + (ST0 &&& 1)
      let ST1 := (ST0 &&& 60) ||| (T1 &&& 128) ||| b2n (T1 > 255)
      let T2 := T1 &&& 0xff
      (wr M addr T2, A, X, SP, ST1 ||| (b2n (T2 = 0) <<< 1), cyc + 2, 0)
  else if hi3 = 0x40 ∨ hi3 = 0x60 then
    let ST0 := if hi3 = 0x40 then ST &&& 0xfe else ST
    if IR &&& 0xf = 0xa then
      let T := A
      let A1 := (A >>> 1) + (ST0 &&& 1) * 128
      let ST1 := (ST0 &&& 60) ||| (A1 &&& 128) ||| (T &&& 1)
      let A2 := A1 &&& 0xff
      (M, A2, X, SP, ST1 ||| (b2n (A2 = 0) <<< 1), cyc, 0)
    else
      let T1 := (M addr >>> 1) + (ST0 &&& 1) * 128
      let ST1 := (ST0 &&& 60) ||| (T1 &&& 128) ||| (M addr &&& 1)
      let T2 := T1 &&& 0xff
      (wr M addr T2, A, X, SP, ST1 ||| (b2n (T2 = 0) <<< 1), cyc + 2, 0)
  else if hi3 = 0xc0 then
    if IR &&& 4 ≠ 0 then
      let v := iAnd ((M addr : Int) - 1) 0xff
      (wr M addr v, A, X, SP, flNZ ST v, cyc + 2, 0)
    else
      let X1 := iAnd ((X : Int) - 1) 0xff
      (M, A, X1, SP, flNZ ST X1, cyc, 0)
  else if hi3 = 0xa0 then
    if IR &&& 0xf ≠ 0xa then
      let X1 := M addr
      (M, A, X1, SP, flNZ ST X1, cyc, 0)
    else if IR &&& 0x10 ≠ 0 then
      (M, A, SP, SP, ST, cyc, 0)
    else
      let X1 := A
      (M, A, X1, SP, flNZ ST X1, cyc, 0)
  else if hi3 = 0x80 then
    if IR &&& 4 ≠ 0 then (wr M addr X, A, X, SP, ST, cyc, addr)
    else if IR &&& 0x10 ≠ 0 then (M, A, X, X, ST, cyc, 0)
    else (M, X, X, SP, flNZ ST X, cyc, 0)
  else
    if IR &&& 4 ≠ 0 then
      let v := (M addr + 1) % 256
      (wr M addr v, A, X, SP, flNZ ST v, cyc + 2, 0)
    else (M, A, X, SP, ST, cyc, 0)

/-- The `(IR & 0xc) === 8` opcode group (stack pushes/pulls, register
increments, flag instructions); returns `(mem, A, X, Y, SP, ST, cyc)`. -/
def opC8 (M : Mem) (A X Y SP ST IR : Nat) :
    Mem × Nat × Nat × Nat × Nat × Nat × Nat :=
  let hi4 := IR &&& 0xf0
  if hi4 = 0x60 then
    let SP1 := (SP + 1) &&& 0xff
    let A1 := M (0x100 + SP1)
    (M, A1, X, Y, SP1, flNZ ST A1, 4)
  else if hi4 = 0xc0 then
    let Y1 := (Y + 1) &&& 0xff
    (M, A, X, Y1, SP, flNZ ST Y1, 2)
  else if hi4 = 0xe0 then
    let X1 := (X + 1) &&& 0xff
    (M, A, X1, Y, SP, flNZ ST X1, 2)
  else if hi4 = 0x80 then
    let Y1 := iAnd ((Y : Int) - 1) 0xff
    (M, A, X, Y1, SP, flNZ ST Y1, 2)
  else if hi4 = 0x00 then
    (wr M (0x100 + SP) ST, A, X, Y, iAnd ((SP : Int) - 1) 0xff, ST, 3)
  else if hi4 = 0x20 then
    let SP1 := (SP + 1) &&& 0xff
    (M, A, X, Y, SP1, M (0x100 + SP1), 4)
  else if hi4 = 0x40 then
    (wr M (0x100 + SP) A, A, X, Y, iAnd ((SP : Int) - 1) 0xff, ST, 3)
  else if hi4 = 0x90 then
    (M, Y, X, Y, SP, flNZ ST Y, 2)
  else if hi4 = 0xa0 then
    (M, A, X, A, SP, flNZ ST A, 2)
  else
    let fl := flagswTab.getD (IR >>> 5) 0
    let ST1 := if fl &&& 0x20 ≠ 0 then ST ||| (fl &&& 0xdf)
               else ST &&& (255 - (fl &&& 0xdf))
    (M, A, X, Y, SP, ST1, 2)

/-- Addressing-mode switch of the remaining (control-flow) opcode group. -/
def addrRest (M : Mem) (PC X IR : Nat) : Nat × Nat × Nat :=
  let lo5 := IR &&& 0x1f
  if lo5 = 0 then (PC+1, PC+1, 2)
  else if lo5 = 0x1c then (M (PC+1) + M (PC+2) * 256 + X, PC+2, 5)
  else if lo5 = 0xc then (M (PC+1) + M (PC+2) * 256, PC+2, 4)
  else if lo5 = 0x14 then (M (PC+1) + X, PC+1, 4)
  else if lo5 = 4 then (M (PC+1), PC+1, 3)
  else (0, PC, 2)

/-- One `_CPU()` call: fetch the opcode at `PC`, dispatch exactly as the
source's nested `if`/`switch` tree does, and return the write-back record.
Status: `0` continue, `0xfe` RTI with empty stack, `0xff` RTS with empty
stack (the source's early `return` paths). -/
def cpuDispatch (M : Mem) (PC A X Y SP ST : Nat) : CpuRes :=
  let IR := M PC
  if IR % 2 = 1 then
    let ax := addrOdd M PC X Y IR
    let addr := ax.1 &&& 0xffff
    let r := opOdd M addr A X IR ST
    { mem := r.1, PCo := (ax.2.1 : Int), A := r.2.1, X := r.2.2.1, Y := Y,
      SP := SP, ST := r.2.2.2.1, cyc := ax.2.2, sta := r.2.2.2.2,
      addr := addr, early := false, status := 0 }
  else if IR &&& 2 ≠ 0 then
    let ax := addrEv2 M PC X Y IR
    let addr := ax.1 &&& 0xffff
    let r := opEv2 M addr A X SP ST IR ax.2.2
    { mem := r.1, PCo := (ax.2.1 : Int), A := r.2.1, X := r.2.2.1, Y := Y,
      SP := r.2.2.2.1, ST := r.2.2.2.2.1, cyc := r.2.2.2.2.2.1,
      sta := r.2.2.2.2.2.2, addr := addr, early := false, status := 0 }
  else if IR &&& 0xc = 8 then
    let r := opC8 M A X Y SP ST IR
    { mem := r.1, PCo := (PC : Int), A := r.2.1, X := r.2.2.1, Y := r.2.2.2.1,
      SP := r.2.2.2.2.1, ST := r.2.2.2.2.2.1, cyc := r.2.2.2.2.2.2,
      sta := 0, addr := addrUndef, early := false, status := 0 }
  else if IR &&& 0x1f = 0x10 then
    let PC1 := PC + 1
    let Traw := M PC1
    let T : Int := if Traw &&& 0x80 ≠ 0 then (Traw : Int) - 0x100 else (Traw : Int)
    let mask := brfTab.getD (IR >>> 6) 0
    let taken := if IR &&& 0x20 ≠ 0 then ST &&& mask ≠ 0 else ST &&& mask = 0
    { mem := M, PCo := if taken then (PC1 : Int) + T else (PC1 : Int),
      A := A, X := X, Y := Y, SP := SP, ST := ST,
      cyc := if taken then 3 else 2, sta := 0, addr := addrUndef,
      early := false, status := 0 }
  else
    let ax := addrRest M PC X IR
    let addr := ax.1 &&& 0xffff
    let PCa := ax.2.1
    let cyc0 := ax.2.2
    let hi3 := IR &&& 0xe0
    if hi3 = 0x00 then
      let M2 := wr M (0x100 + SP) (PCa % 256)
      let SP1 := iAnd ((SP : Int) - 1) 0xff
      let M3 := wr M2 (0x100 + SP1) (PCa / 256)
      let SP2 := iAnd ((SP1 : Int) - 1) 0xff
      let M4 := wr M3 (0x100 + SP2) ST
      let SP3 := iAnd ((SP2 : Int) - 1) 0xff
      { mem := M4, PCo := (M4 0xfffe + M4 0xffff * 256 : Int) - 1, A := A,
        X := X, Y := Y, SP := SP3, ST := ST, cyc := 7, sta := 0, addr := addr,
        early := false, status := 0 }
    else if hi3 = 0x20 then
      if IR &&& 0xf ≠ 0 then
        { mem := M, PCo := (PCa : Int), A := A, X := X, Y := Y, SP := SP,
          ST := (ST &&& 0x3d) ||| (M addr &&& 0xc0) ||| (b2n (A &&& M addr = 0) <<< 1),
          cyc := cyc0, sta := 0, addr := addr, early := false, status := 0 }
      else
        let M2 := wr M (0x100 + SP) ((PCa + 2) % 256)
        let SP1 := iAnd ((SP : Int) - 1) 0xff
        let M3 := wr M2 (0x100 + SP1) ((PCa + 2) / 256)
        let SP2 := iAnd ((SP1 : Int) - 1) 0xff
        { mem := M3, PCo := (M3 addr + M3 (addr + 1) * 256 : Int) - 1, A := A,
          X := X, Y := Y, SP := SP2, ST := ST, cyc := 6, sta := 0,
          addr := addr, early := false, status := 0 }
    else if hi3 = 0x40 then
      if IR &&& 0xf ≠ 0 then
        { mem := M, PCo := (addr : Int) - 1, A := A, X := X, Y := Y, SP := SP,
          ST := ST, cyc := 3, sta := 0, addr := addr, early := false, status := 0 }
      else if SP ≥ 0xff then
        { mem := M, PCo := (PCa : Int), A := A, X := X, Y := Y, SP := SP,
          ST := ST, cyc := cyc0, sta := 0, addr := addr, early := true,
          status := 0xfe }
      else
        let SP1 := (SP + 1) &&& 0xff
        let ST1 := M (0x100 + SP1)
        let SP2 := (SP1 + 1) &&& 0xff
        let T := M (0x100 + SP2)
        let SP3 := (SP2 + 1) &&& 0xff
        { mem := M, PCo := (M (0x100 + SP3) + T * 256 : Int) - 1, A := A,
          X := X, Y := Y, SP := SP3, ST := ST1, cyc := 6, sta := 0,
          addr := addr, early := false, status := 0 }
    else if hi3 = 0x60 then
      if IR &&& 0xf ≠ 0 then
        { mem := M, PCo := (M addr + M (addr + 1) * 256 : Int) - 1, A := A,
          X := X, Y := Y, SP := SP, ST := ST, cyc := 5, sta := 0,
          addr := addr, early := false, status := 0 }
      else if SP ≥ 0xff then
        { mem := M, PCo := (PCa : Int), A := A, X := X, Y := Y, SP := SP,
          ST := ST, cyc := cyc0, sta := 0, addr := addr, early := true,
          status := 0xff }
      else
        let SP1 := (SP + 1) &&& 0xff
        let T := M (0x100 + SP1)
        let SP2 := (SP1 + 1) &&& 0xff
        { mem := M, PCo := (M (0x100 + SP2) + T * 256 : Int) - 1, A := A,
          X := X, Y := Y, SP := SP2, ST := ST, cyc := 6, sta := 0,
          addr := addr, early := false, status := 0 }
    else if hi3 = 0xc0 then
      let Ti : Int := (Y : Int) - M addr
      { mem := M, PCo := (PCa : Int), A := A, X := X, Y := Y, SP := SP,
        ST := (ST &&& 124) ||| (b2n (iAnd Ti 0xff = 0) <<< 1) ||| iAnd Ti 128 |||
          b2n (0 ≤ Ti),
        cyc := cyc0, sta := 0, addr := addr, early := false, status := 0 }
    else if hi3 = 0xe0 then
      let Ti : Int := (X : Int) - M addr
      { mem := M, PCo := (PCa : Int), A := A, X := X, Y := Y, SP := SP,
        ST := (ST &&& 124) ||| (b2n (iAnd Ti 0xff = 0) <<< 1) ||| iAnd Ti 128 |||
          b2n (0 ≤ Ti),
        cyc := cyc0, sta := 0, addr := addr, early := false, status := 0 }
    else if hi3 = 0xa0 then
      let Y1 := M addr
      { mem := M, PCo := (PCa : Int), A := A, X := X, Y := Y1, SP := SP,
        ST := flNZ ST Y1, cyc := cyc0, sta := 0, addr := addr,
        early := false, status := 0 }
    else
      { mem := wr M addr Y, PCo := (PCa : Int), A := A, X := X, Y := Y,
        SP := SP, ST := ST, cyc := cyc0, sta := addr, addr := addr,
        early := false, status := 0 }

/-- One `this._CPU()` call on the engine state: dispatch, then the common
`PC++; PC &= 0xffff` and write-back (skipped by the early underflow
returns, which store the un-incremented local `PC`). -/
def cpuStep (s : SIDState) : SIDState × Nat :=
  let r := cpuDispatch s.memory s.PC s.A s.X s.Y s.SP s.ST
  ({ s with
      memory := r.mem,
      PC := if r.early then r.PCo.toNat else ((r.PCo + 1).emod 65536).toNat,
      A := r.A, X := r.X, Y := r.Y, SP := r.SP, ST := r.ST,
      cyc := r.cyc, sta := r.sta, addr := r.addr }, r.status)

/-- `_initCPU(mempos)`. -/
def initCPU (mempos : Nat) (s : SIDState) : SIDState :=
  { s with PC := mempos, A := 0, X := 0, Y := 0, ST := 0, SP := 0xff }

/-- `initSID()`: clear the chip register pages and reset the envelope state of
the nine voices. -/
def initSID (s : SIDState) : SIDState :=
  { s with
    memory := fun a =>
      if (0xd400 ≤ a ∧ a ≤ 0xd7ff) ∨ (0xde00 ≤ a ∧ a ≤ 0xdfff) then 0
      else s.memory a,
    Ast := fun i => if i < 9 then 0x10 else s.Ast i,
    rcnt := fun i => if i < 9 then 0 else s.rcnt i,
    envcnt := fun i => if i < 9 then 0 else s.envcnt i,
    expcnt := fun i => if i < 9 then 0 else s.expcnt i,
    pSR := fun i => if i < 9 then 0 else s.pSR i }

/-- The bounded init-routine loop
`for (timeout = 100000; timeout >= 0; timeout--) if (this._CPU()) break;`
(the fuel argument counts the remaining iterations). -/
def initLoop : Nat → SIDState → SIDState
  | 0, s => s
  | fuel + 1, s =>
    let r := cpuStep s
    if r.2 ≠ 0 then r.1 else initLoop fuel r.1

/-- Frame-period phase of `init` (source lines 468–477): if the subtune is
timer-driven (header bit, or the CIA high-latch register was written during
the init routine) derive the frame sample period from the CIA timer latch,
else use the PAL video frame rate. -/
def initFrame (s4 : SIDState) : SIDState :=
  if s4.timermode s4.subtune ≠ 0 ∨ s4.memory 0xdc05 ≠ 0 then
    let s4a : SIDState :=
      if s4.memory 0xdc05 = 0 then
        { s4 with memory := wr (wr s4.memory 0xdc04 0x24) 0xdc05 0x40 }
      else s4
    { s4a with frame_sampleperiod :=
        ((s4a.memory 0xdc04 + s4a.memory 0xdc05 * 256 : Nat) : ℚ) / s4a.clk_ratio }
  else { s4 with frame_sampleperiod := s4.sampleRate / 50 }

/-- Play-address phase of `init` (source lines 479–489): a zero play-address
field means "read the IRQ/BRK vector" (the hardware vector or the RAM vector
depending on the banking byte); otherwise take the header field, switching
out the ROM when the play address lives under it. -/
def initPlayAddr (s5 : SIDState) : SIDState :=
  if s5.playaddf = 0 then
    { s5 with playaddr :=
        if s5.memory 1 &&& 3 < 2 then s5.memory 0xfffe + s5.memory 0xffff * 256
        else s5.memory 0x314 + s5.memory 0x315 * 256 }
  else
    let s5a := { s5 with playaddr := s5.playaddf }
    if s5a.playaddr ≥ 0xe000 ∧ s5a.memory 1 = 0x37 then
      { s5a with memory := wr s5a.memory 1 0x35 }
    else s5a

/-- `init(subtune)` (source lines 454–498): store the requested subtune index,
reset CPU and chip, run the init routine with the bounded budget, derive the
frame sample period, resolve the play address, and point the CPU at it. -/
def init (subtune : Nat) (s : SIDState) : SIDState :=
  if ¬ s.loaded then s else
  let s1 := { s with initialized := false, subtune := subtune }
  let s2 := initSID (initCPU s1.initaddr s1)
  let s3 := { s2 with A := s2.subtune,
                      memory := wr (wr s2.memory 1 0x37) 0xdc05 0 }
  let s6 := initPlayAddr (initFrame (initLoop 100001 s3))
  let s7 := initCPU s6.playaddr s6
  { s7 with framecnt := 1, finished := false, CPUtime := 0, playtime := 0,
            ended := false, initialized := true }

/-- `resetSubtune()`. -/
def resetSubtune (s : SIDState) : SIDState := init s.subtune s

/-- `a + b` of two possibly-out-of-bounds byte reads, used as a truthiness
test (`filedata[8] + filedata[9] ? … : …`): an out-of-bounds read gives
`undefined`, the sum is then `NaN`, which is falsy. -/
def jsTruthyAdd : Option Nat → Option Nat → Bool
  | some x, some y => x + y ≠ 0
  | _, _ => false

/-- `filedata[8] + filedata[9] ? filedata[8]*256 + filedata[9]
: filedata[offs] + filedata[offs+1]*256` (source lines 401–405): the load
address resolved by `loadSIDData`, as an extended number (`NaN` when the
needed bytes are out of bounds). -/
def resolveLoadAddr (d : List Nat) : JSNum :=
  if jsTruthyAdd (d.get? 8) (d.get? 9) then
    JSNum.fin ((d.getD 8 0 * 256 + d.getD 9 0 : Nat) : ℚ)
  else
    match d.get? 7 with
    | none => JSNum.nan
    | some offs =>
      match d.get? offs, d.get? (offs + 1) with
      | some x, some y => JSNum.fin ((x + y * 256 : Nat) : ℚ)
      | _, _ => JSNum.nan

/-- Coerce a resolved address to the `Nat`-typed state field.  The special
values collapse to 0; they arise only for inputs too short to contain the
referenced bytes, a corner no claim instantiates (in JavaScript such an
address is `NaN` and every subsequent indexed access misses). -/
def jsAddrNat : JSNum → Nat
  | JSNum.fin q => (truncQ q).toNat
  | _ => 0

/-- The program-image copy loop: write the remaining bytes consecutively from
`a`, dropping addresses outside the 64KB window. -/
def copyBytes : Mem → Nat → List Nat → Mem
  | m, _, [] => m
  | m, a, b :: rest => copyBytes (if a < 65536 then wr m a b else m) (a + 1) rest

/-- The `_timermode` extraction loop
(`timermode[31-i] = filedata[0x12 + (i>>3)] & pow(2, 7-(i%8))`). -/
def timermodeOf (d : List Nat) (tm0 : Nat → Nat) : Nat → Nat :=
  (List.range 32).foldl
    (fun tm i => upd tm (31 - i) (d.getD (0x12 + i / 8) 0 &&& 2 ^ (7 - i % 8)))
    tm0

/-- `_parseString(data, offset, target)`: copy 32 bytes, zero-filling after
the first zero byte; an out-of-bounds read stores 0 (the `Uint8Array`
coerces `undefined`) while the loop keeps copying (`undefined !== 0`). -/
def parseStr (d : List Nat) (offset : Nat) : Nat → Nat :=
  (((List.range 32).foldl
      (fun (acc : (Nat → Nat) × Bool) i =>
        if acc.2 then
          (upd acc.1 i (d.getD (offset + i) 0),
           match d.get? (offset + i) with
           | some v => v ≠ 0
           | none => true)
        else (upd acc.1 i 0, acc.2))
      ((fun _ => 0), true)).1)

/-- The parsing/state-building phase of `loadSIDData(filedata, subtune)`
(source lines 396–450, everything before the final `init` call): resets the
chip, resolves addresses, zeroes the 64KB memory and copies the program
image, extracts metadata, and sets `loaded`. -/
def loadParse (d : List Nat) (subtune : Nat) (s : SIDState) : SIDState :=
  let s1 := initSID { s with loaded := false }
  let s2 := { s1 with subtune := subtune }
  let la := resolveLoadAddr d
  let s3 := { s2 with loadaddr := jsAddrNat la,
                      timermode := timermodeOf d s2.timermode }
  let mz : Mem := fun a => if a < 65536 then 0 else s3.memory a
  let mcopied : Mem :=
    match d.get? 7, la with
    | some offs, JSNum.fin _ => copyBytes mz s3.loadaddr (d.drop (offs + 2))
    | _, _ => mz
  { s3 with
    memory := mcopied,
    title := parseStr d 0x16,
    author := parseStr d 0x36,
    info := parseStr d 0x56,
    initaddr :=
      if jsTruthyAdd (d.get? 0xa) (d.get? 0xb) then d.getD 0xa 0 * 256 + d.getD 0xb 0
      else s3.loadaddr,
    playaddf := d.getD 0xc 0 * 256 + d.getD 0xd 0,
    playaddr := d.getD 0xc 0 * 256 + d.getD 0xd 0,
    subtune_amount := d.getD 0xf 0,
    preferred_SID_model := fun i =>
      if i = 0 then (if d.getD 0x77 0 &&& 0x30 ≥ 0x20 then 8580 else 6581)
      else if i = 1 then (if d.getD 0x77 0 &&& 0xc0 ≥ 0x80 then 8580 else 6581)
      else if i = 2 then (if d.getD 0x76 0 &&& 3 ≥ 3 then 8580 else 6581)
      else s3.preferred_SID_model i,
    SID_address := fun i =>
      if i = 1 then
        (if d.getD 0x7a 0 ≥ 0x42 ∧ (d.getD 0x7a 0 < 0x80 ∨ d.getD 0x7a 0 ≥ 0xe0)
         then 0xd000 + d.getD 0x7a 0 * 16 else 0)
      else if i = 2 then
        (if d.getD 0x7b 0 ≥ 0x42 ∧ (d.getD 0x7b 0 < 0x80 ∨ d.getD 0x7b 0 ≥ 0xe0)
         then 0xd000 + d.getD 0x7b 0 * 16 else 0)
      else s3.SID_address i,
    SIDamount :=
      1 + b2n (0 < (if d.getD 0x7a 0 ≥ 0x42 ∧ (d.getD 0x7a 0 < 0x80 ∨ d.getD 0x7a 0 ≥ 0xe0)
                    then 0xd000 + d.getD 0x7a 0 * 16 else 0))
        + b2n (0 < (if d.getD 0x7b 0 ≥ 0x42 ∧ (d.getD 0x7b 0 < 0x80 ∨ d.getD 0x7b 0 ≥ 0xe0)
                    then 0xd000 + d.getD 0x7b 0 * 16 else 0)),
    loaded := true }

/-- `loadSIDData(filedata, subtune)`: the parsing phase followed by the final
`this.init(subtune)` call. -/
def loadSIDData (d : List Nat) (subtune : Nat) (s : SIDState) : SIDState :=
  init subtune (loadParse d subtune s)

/-- One clock of the 23-bit noise LFSR (source lines 895–897): feedback is
taken from bits 22 and 17; the new bit is 1 when the feedback xor is nonzero
or the test bit is set. -/
def nLFSRstep (test : Bool) (t : Nat) : Nat :=
  let fb := (t &&& 0x400000) ^^^ ((t &&& 0x20000) <<< 5)
  ((t <<< 1) + (if 0 < fb ∨ test then 1 else 0)) &&& 0x7fffff

/-- `_cmbWF(chn, wfa, index, differ6581)`: average the table sample with the
previous one; returns `(value, new pwv)`.  On the 6581 the index is reduced
to 11 bits for the tables flagged `differ6581`. -/
def cmbWF (wfa : Nat → ℚ) (index : Nat) (differ6581 : Bool) (model : ℚ)
    (pwv : ℚ) : ℚ × ℚ :=
  let idx := if differ6581 ∧ model = 6581 then index &&& 0x7ff else index
  ((wfa idx + pwv) / 2, wfa idx)

/-- Gate-edge detection of one voice (source lines 829–836): on release clear
gate/attack/decay-sustain, on attack set them and flag the ADSR delay bug when
the new sustain nibble exceeds the previous raw register value.  Returns the
new `Ast` and the delay-bug flag `tmp`. -/
def sidGateEdge (Ast pSR ctrl SR : Nat) : Nat × Nat :=
  let pgt := Ast &&& 1
  if pgt ≠ ctrl &&& 1 then
    if pgt ≠ 0 then (Ast &&& (0xff - 0xc1), 0)
    else (0xc1, if SR &&& 0xf > pSR &&& 0xf then 1 else 0)
  else (Ast, 0)

/-- Envelope stepping of one voice (source lines 839–874): rate counter with
15-bit wrap, rate-period table lookup by the active ADSR phase, exponential
sub-counter, attack increment saturating at 255, decay/release decrement with
the counter-wrap quirk and the silence flag.  Returns
`(rcnt, Ast, envcnt before the final mask, expcnt)`. -/
def sidEnvelope (clk : ℚ) (M5 SR Ast : Nat) (rcnt : ℚ) (envcnt : Int)
    (expcnt tmp : Nat) : ℚ × Nat × Int × Nat :=
  let rcnt1 := rcnt + clk
  let rcnt2 := if rcnt1 ≥ 0x8000 then rcnt1 - 0x8000 else rcnt1
  let stepIdx :=
    if Ast &&& 0x80 ≠ 0 then M5 >>> 4
    else if Ast &&& 0x40 ≠ 0 then M5 &&& 0xf
    else SR &&& 0xf
  let prd := (AprdTab clk).getD stepIdx 0
  let step : Int := (AstpTab clk).getD stepIdx 0
  if rcnt2 ≥ prd ∧ rcnt2 < prd + clk ∧ tmp = 0 then
    let rcnt3 := rcnt2 - prd
    let expTrig := Ast &&& 0x80 ≠ 0 ∨
      (0 ≤ envcnt ∧ AexpTab.get? envcnt.toNat = some (expcnt + 1))
    if expTrig then
      if Ast &&& 0x10 = 0 then
        if Ast &&& 0x80 ≠ 0 then
          let e1 := envcnt + step
          if e1 ≥ 0xff then (rcnt3, Ast &&& (0xff - 0x80), 0xff, 0)
          else (rcnt3, Ast, e1, 0)
        else if Ast &&& 0x40 = 0 ∨ envcnt > (((SR >>> 4) + (SR &&& 0xf0) : Nat) : Int) then
          let e1 := envcnt - step
          if e1 ≤ 0 ∧ e1 + step ≠ 0 then (rcnt3, Ast ||| 0x10, 0, 0)
          else (rcnt3, Ast, e1, 0)
        else (rcnt3, Ast, envcnt, 0)
      else (rcnt3, Ast, envcnt, 0)
    else (rcnt3, Ast, envcnt, expcnt + 1)
  else (rcnt2, Ast, envcnt, expcnt)

/-- Waveform selection of one voice (source lines 889–959): noise from the
LFSR bit-gather, pulse (with the step-interpolated edges computed over
extended numbers, since `256 / (aAdd >> 16)` divides by a value that can be
zero), combined waveforms through the blend tables, sawtooth with slope
correction, triangle with ring modulation.  Returns
`(wfout, new nLFSR, new pwv)`; for `wf = 0` the source leaves `wfout`
undefined and the caller substitutes `prevwfout`. -/
def waveformOutput (model : ℚ) (wf test ctrl : Nat) (aAdd pacc pracc : ℚ)
    (sMSBnum lfsr : Nat) (pwv : ℚ) (M2 M3 : Nat) : JSNum × Nat × ℚ :=
  if wf &&& 0x80 ≠ 0 then
    let clocked := qAnd pacc 0x100000 ≠ qAnd pracc 0x100000 ∨ aAdd ≥ 0x100000
    let tmp := if clocked then nLFSRstep (test ≠ 0) lfsr else lfsr
    let w : Nat :=
      if wf &&& 0x70 ≠ 0 then 0
      else ((tmp &&& 0x100000) >>> 5) + ((tmp &&& 0x40000) >>> 4) +
        ((tmp &&& 0x4000) >>> 1) + ((tmp &&& 0x800) <<< 1) +
        ((tmp &&& 0x200) <<< 2) + ((tmp &&& 0x20) <<< 5) +
        ((tmp &&& 0x04) <<< 7) + ((tmp &&& 0x01) <<< 8)
    (JSNum.fin (w : ℚ), tmp, pwv)
  else if wf &&& 0x40 ≠ 0 then
    let pw0 := (M2 + (M3 &&& 0xf) * 256) * 16
    let t1 := qShr aAdd 9
    let pw1 := if 0 < pw0 ∧ pw0 < t1 then t1 else pw0
    let t2 := t1 ^^^ 0xffff
    let pw := if pw1 > t2 then t2 else pw1
    let tmp := qShr pacc 8
    if wf = 0x40 then
      let step := JSNum.div (JSNum.fin 256) (JSNum.fin ((qShr aAdd 16 : Nat) : ℚ))
      let w : JSNum :=
        if test ≠ 0 then JSNum.fin 0xffff
        else if tmp < pw then
          let lim0 := JSNum.mul (JSNum.fin ((0xffff - pw : Nat) : ℚ)) step
          let lim := if JSNum.lt (JSNum.fin 0xffff) lim0 then JSNum.fin 0xffff else lim0
          let w0 := JSNum.sub lim (JSNum.mul (JSNum.fin ((pw - tmp : Nat) : ℚ)) step)
          if JSNum.lt w0 (JSNum.fin 0) then JSNum.fin 0 else w0
        else
          let lim0 := JSNum.mul (JSNum.fin ((pw : Nat) : ℚ)) step
          let lim := if JSNum.lt (JSNum.fin 0xffff) lim0 then JSNum.fin 0xffff else lim0
          let w0 := JSNum.sub (JSNum.mul (JSNum.fin ((0xffff - tmp : Nat) : ℚ)) step) lim
          let w1 := if JSNum.le (JSNum.fin 0) w0 then JSNum.fin 0xffff else w0
          JSNum.fin ((JSNum.jAnd w1 0xffff : Nat) : ℚ)
      (w, lfsr, pwv)
    else
      let w0 : Nat := if tmp ≥ pw ∨ test ≠ 0 then 0xffff else 0
      if wf &&& 0x10 ≠ 0 then
        if wf &&& 0x20 ≠ 0 then
          if w0 ≠ 0 then
            let c := cmbWF Pulsetrsaw (tmp >>> 4) true model pwv
            (JSNum.fin c.1, lfsr, c.2)
          else (JSNum.fin 0, lfsr, pwv)
        else
          let t3 := qXor pacc (if ctrl &&& 4 ≠ 0 then sMSBnum else 0)
          if w0 ≠ 0 then
            let c := cmbWF pusaw
              ((t3 ^^^ (if t3 &&& 0x800000 ≠ 0 then 0xffffff else 0)) >>> 11)
              false model pwv
            (JSNum.fin c.1, lfsr, c.2)
          else (JSNum.fin 0, lfsr, pwv)
      else if wf &&& 0x20 ≠ 0 then
        if w0 ≠ 0 then
          let c := cmbWF pusaw (tmp >>> 4) true model pwv
          (JSNum.fin c.1, lfsr, c.2)
        else (JSNum.fin 0, lfsr, pwv)
      else (JSNum.fin (w0 : ℚ), lfsr, pwv)
  else if wf &&& 0x20 ≠ 0 then
    let w0 := qShr pacc 8
    if wf &&& 0x10 ≠ 0 then
      let c := cmbWF trsaw (w0 >>> 4) true model pwv
      (JSNum.fin c.1, lfsr, c.2)
    else
      let step : ℚ := aAdd / 0x1200000
      let w1 : ℚ := (w0 : ℚ) + (w0 : ℚ) * step
      let w2 : ℚ := if w1 > 0xffff then 0xffff - (w1 - 0x10000) / step else w1
      (JSNum.fin w2, lfsr, pwv)
  else if wf &&& 0x10 ≠ 0 then
    let t3 := qXor pacc (if ctrl &&& 4 ≠ 0 then sMSBnum else 0)
    (JSNum.fin
      (((t3 ^^^ (if t3 &&& 0x800000 ≠ 0 then 0xffffff else 0)) >>> 7 : Nat) : ℚ),
     lfsr, pwv)
  else (JSNum.fin 0, lfsr, pwv)

/-- One voice of `_SID(num, SIDaddr)` (the body of the channel loop, source
lines 820–971): gate edge, envelope, phase-accumulator advance with
test/hard-sync reset and 24-bit wrap, waveform generation, previous-waveform
latch, and routing of the contribution to the filter input or the direct
output.  Returns the updated state and `(flin, output, wfout)`. -/
def sidChannel (s : SIDState) (num chn SIDaddr : Nat) (flin output : ℚ) :
    SIDState × ℚ × ℚ × ℚ :=
  let M := s.memory
  let chnadd := SIDaddr + (chn - num * 3) * 7
  let ctrl := M (chnadd + 4)
  let wf := ctrl &&& 0xf0
  let test := ctrl &&& 8
  let SR := M (chnadd + 6)
  let ge := sidGateEdge (s.Ast chn) (s.pSR chn) ctrl SR
  let env := sidEnvelope s.clk_ratio (M (chnadd + 5)) SR ge.1 (s.rcnt chn)
    (s.envcnt chn) (s.expcnt chn) ge.2
  let envcntM : Int := ((iAnd env.2.2.1 0xff : Nat) : Int)
  let aAdd : ℚ := ((M chnadd + M (chnadd + 1) * 256 : Nat) : ℚ) * s.clk_ratio
  let pacc1 : ℚ :=
    if test ≠ 0 ∨ (ctrl &&& 2 ≠ 0 ∧ s.sMSBrise num ≠ 0) then 0
    else
      let p := s.pacc chn + aAdd
      if p > 0xffffff then p - 0x1000000 else p
  let MSB := qAnd pacc1 0x800000
  let rise := if MSB > qAnd (s.pracc chn) 0x800000 then 1 else 0
  let wres := waveformOutput s.SID_model wf test ctrl aAdd pacc1 (s.pracc chn)
    (s.sMSB num) (s.nLFSR chn) (s.pwv chn) (M (chnadd + 2)) (M (chnadd + 3))
  let wfoutQ : ℚ := if wf ≠ 0 then wres.1.toQ0 else s.prevwfout chn
  let contrib : ℚ := (wfoutQ - 0x8000) * ((envcntM : ℚ) / 256)
  let routed := M (SIDaddr + 0x17) &&& FSWTab.getD chn 0 ≠ 0
  let off3 := chn % 3 = 2 ∧ M (SIDaddr + 0x18) &&& 0x80 ≠ 0
  ({ s with
      Ast := upd s.Ast chn env.2.1,
      pSR := upd s.pSR chn SR,
      rcnt := upd s.rcnt chn env.1,
      envcnt := upd s.envcnt chn envcntM,
      expcnt := upd s.expcnt chn env.2.2.2,
      pacc := upd s.pacc chn pacc1,
      pracc := upd s.pracc chn pacc1,
      sMSBrise := upd s.sMSBrise num rise,
      sMSB := upd s.sMSB num MSB,
      nLFSR := upd s.nLFSR chn wres.2.1,
      prevwfout := upd s.prevwfout chn (if wf ≠ 0 then wfoutQ else s.prevwfout chn),
      pwv := upd s.pwv chn wres.2.2 },
   (if routed then flin + contrib else flin,
    (if ¬ routed ∧ ¬ off3 then output + contrib else output,
     wfoutQ)))

/-- Tail of `_SID(num, SIDaddr)` (source lines 975–1000): oscillator/envelope
read-back registers, the model-dependent cutoff and resonance curves, the
two-pole filter update, and the scaled return value. -/
def sidFilter (env : JSEnv) (s : SIDState) (num SIDaddr : Nat)
    (flin output wfout : ℚ) : SIDState × ℚ :=
  let M1 := if s.memory 1 &&& 3 ≠ 0 then
      wr s.memory (SIDaddr + 0x1b) (qShr wfout 8)
    else s.memory
  let M2 := wr M1 (SIDaddr + 0x1c) (iAnd (s.envcnt 3) 0xff)
  let ctf0 : ℚ := ((M2 (SIDaddr + 0x15) &&& 7 : Nat) : ℚ) / 8 +
    ((M2 (SIDaddr + 0x16) : Nat) : ℚ) + 1/5
  let ctf : ℚ :=
    if s.SID_model = 8580 then 1 - env.exp (ctf0 * s.ctfr)
    else if ctf0 < 24 then 7/200
    else 1 - 1263/1000 * env.exp (ctf0 * s.ctf_ratio_6581)
  let reso : ℚ :=
    if s.SID_model = 8580 then
      env.pow2 ((((4 : Int) - (M2 (SIDaddr + 0x17) >>> 4 : Nat) : Int) : ℚ) / 8)
    else if M2 (SIDaddr + 0x17) > 0x5f then
      8 / ((M2 (SIDaddr + 0x17) >>> 4 : Nat) : ℚ)
    else 141/100
  let t1 : ℚ := flin + s.pbp num * reso + s.plp num
  let out1 := if M2 (SIDaddr + 0x18) &&& 0x40 ≠ 0 then output - t1 else output
  let t2 := s.pbp num - t1 * ctf
  let out2 := if M2 (SIDaddr + 0x18) &&& 0x20 ≠ 0 then out1 - t2 else out1
  let t3 := s.plp num + t2 * ctf
  let out3 := if M2 (SIDaddr + 0x18) &&& 0x10 ≠ 0 then out2 + t3 else out2
  ({ s with memory := M2, pbp := upd s.pbp num t2, plp := upd s.plp num t3,
            output := out3 },
   out3 / ((0x10000 * 3 * 16 : Nat) : ℚ) * ((M2 (SIDaddr + 0x18) &&& 0xf : Nat) : ℚ))

/-- `_SID(num, SIDaddr)`: the three voices followed by the read-back and
filter tail. -/
def SIDmix (env : JSEnv) (num SIDaddr : Nat) (s : SIDState) : SIDState × ℚ :=
  let c0 := sidChannel s num (num * 3) SIDaddr 0 0
  let c1 := sidChannel c0.1 num (num * 3 + 1) SIDaddr c0.2.1 c0.2.2.1
  let c2 := sidChannel c1.1 num (num * 3 + 2) SIDaddr c1.2.1 c1.2.2.1
  sidFilter env c2.1 num SIDaddr c2.2.1 c2.2.2.1 c2.2.2.2

/-- The CIA-timer re-read inside the play loop (source lines 536–544). -/
def playTimerCheck (s : SIDState) : SIDState :=
  if (s.addr = 0xdc05 ∨ s.addr = 0xdc04) ∧ s.memory 1 &&& 3 ≠ 0 ∧
      s.timermode s.subtune ≠ 0 then
    { s with frame_sampleperiod :=
        ((s.memory 0xdc04 + s.memory 0xdc05 * 256 : Nat) : ℚ) / s.clk_ratio }
  else s

/-- The chip-register mirroring rule inside the play loop (source lines
546–563): a store whose target lies in `[0xd420, 0xd800)` while I/O is mapped
in is copied down to `sta & 0xd41f`, unless the target lies inside the second
or third chip's register window. -/
def mirrorStores (s : SIDState) : SIDState :=
  if s.sta ≥ 0xd420 ∧ s.sta < 0xd800 ∧ s.memory 1 &&& 3 ≠ 0 then
    if ¬ (s.SID_address 1 ≤ s.sta ∧ s.sta < s.SID_address 1 + 0x1f) ∧
       ¬ (s.SID_address 2 ≤ s.sta ∧ s.sta < s.SID_address 2 + 0x1f) then
      { s with memory := wr s.memory (s.sta &&& 0xd41f) (s.memory s.sta) }
    else s
  else s

/-- The test-bit envelope clears inside the play loop (source lines 565–570). -/
def gateTestClear (s : SIDState) : SIDState :=
  let a0 := if s.addr = 0xd404 ∧ s.memory 0xd404 &&& 1 = 0 then
      upd s.Ast 0 (s.Ast 0 &&& 0x3e) else s.Ast
  let a1 := if s.addr = 0xd40b ∧ s.memory 0xd40b &&& 1 = 0 then
      upd a0 1 (a0 1 &&& 0x3e) else a0
  let a2 := if s.addr = 0xd412 ∧ s.memory 0xd412 &&& 1 = 0 then
      upd a1 2 (a1 2 &&& 0x3e) else a1
  { s with Ast := a2 }

/-- The CPU loop of `play()` (source lines 518–571): step while the
accumulated cycle cost is within the per-sample budget, stopping on a
return-underflow status or on the ROM idle-loop addresses; after each step
apply the timer re-read, register mirroring and test-bit clears.  The fuel
argument only bounds the recursion; `play` passes enough for the loop to
always exit through its condition or a break. -/
def playLoop : Nat → SIDState → SIDState
  | 0, s => s
  | fuel + 1, s =>
    if s.CPUtime ≤ s.clk_ratio then
      let r := cpuStep { s with pPC := s.PC }
      if r.2 ≥ 0xfe then { r.1 with finished := true }
      else
        let s1 : SIDState := { r.1 with CPUtime := r.1.CPUtime + (r.1.cyc : ℚ) }
        if s1.memory 1 &&& 3 > 1 ∧ s1.pPC < 0xe000 ∧
            (s1.PC = 0xea31 ∨ s1.PC = 0xea81) then
          { s1 with finished := true }
        else playLoop fuel (gateTestClear (mirrorStores (playTimerCheck s1)))
    else s

/-- Fuel sufficient for `playLoop`: every non-breaking iteration adds a cycle
cost of at least 2 to `CPUtime`, so the loop condition fails within this many
iterations. -/
def loopFuel (s : SIDState) : Nat := (qCeil (s.clk_ratio - s.CPUtime)).toNat / 2 + 2

/-- Frame bookkeeping at the top of `play()` (source lines 507–515):
decrement the frame counter, accumulate playtime, and on frame expiry reset
the counter, clear `finished` and point the CPU at the play address. -/
def playFrameTick (s : SIDState) : SIDState :=
  let s1 := { s with framecnt := s.framecnt - 1,
                     playtime := s.playtime + 1 / s.sampleRate }
  if s1.framecnt ≤ 0 then
    { s1 with framecnt := s1.frame_sampleperiod, finished := false,
              PC := s1.playaddr, SP := 0xff }
  else s1

/-- The `if (!this._finished) { while … ; CPUtime -= clk_ratio }` block of
`play()`. -/
def playCPU (s : SIDState) : SIDState :=
  if ¬ s.finished then
    let s2 := playLoop (loopFuel s) s
    { s2 with CPUtime := s2.CPUtime - s2.clk_ratio }
  else s

/-- `if (this._SID_address[num]) this._mix += this._SID(num, address)` — the
conditional mixing of the second or third chip in `play()`. -/
def playMixChip (env : JSEnv) (num : Nat) (s : SIDState) : SIDState :=
  if s.SID_address num ≠ 0 then
    let r := SIDmix env num (s.SID_address num) s
    { r.1 with mix := r.1.mix + r.2 }
  else s

/-- The chip mixing of `play()` (source lines 575–579): always the first
chip, plus the second and third when configured. -/
def playMixAll (env : JSEnv) (s : SIDState) : SIDState :=
  let r0 := SIDmix env 0 0xd400 s
  playMixChip env 2 (playMixChip env 1 { r0.1 with mix := r0.2 })

/-- `play()` — one generated sample (source lines 504–585).  `rand` is the
`Math.random()` sample drawn for the dither term of this call.  Returns the
sample value and the updated engine state. -/
def play (env : JSEnv) (rand : ℚ) (s : SIDState) : ℚ × SIDState :=
  if ¬ (s.loaded ∧ s.initialized) then (0, s) else
  let s3 := playMixAll env (playCPU (playFrameTick s))
  (s3.mix * s3.volume * SIDamountVol.getD s3.SIDamount 0 +
     (rand * s3.backgroundNoise - s3.backgroundNoise / 2), s3)

/-- `getPlaytime()` — the elapsed-playtime accessor: `Math.floor(playtime)`. -/
def getPlaytime (s : SIDState) : Int := qFloor s.playtime

/-- `getPlaytimeExact()`. -/
def getPlaytimeExact (s : SIDState) : ℚ := s.playtime

/-- `getSubtunes()`. -/
def getSubtunes (s : SIDState) : Nat := s.subtune_amount

/-- `n` consecutive `play()` calls, fed by the stream `rs` of
`Math.random()` samples. -/
def playN (env : JSEnv) (rs : Nat → ℚ) : Nat → SIDState → SIDState
  | 0, s => s
  | n + 1, s => playN env rs n (play env (rs n) s).2

/-- A concrete 16-byte (truncated) input file: data offset 12, explicit
load/init address `0x1000`, play address 0, one subtune; the two copied
program bytes put an RTS opcode at `0x1000`. -/
def cex16 : List Nat := [0, 0, 0, 0, 0, 0, 0, 12, 16, 0, 16, 0, 0, 0, 0x60, 1]

/-- A second concrete truncated input, loading an RTS at `0x2000` instead. -/
def cex16b : List Nat := [0, 0, 0, 0, 0, 0, 0, 12, 32, 0, 32, 0, 0, 0, 0x60, 2]

/-- A freshly constructed engine at 44100 Hz with the plugin's default
background-noise amplitude 0.0005. -/
def engine0 : SIDState := initialState 44100 (1/2000)

/-- The engine after `loadSIDData(cex16, 0)`: a loaded, initialized state. -/
def loadedState : SIDState := loadSIDData cex16 0 engine0

/-- A state in which the last CPU store went to `0xd43d` (inside the primary
chip's mirrored register area) with I/O mapped in and no extra chips. -/
def mirrorState : SIDState :=
  { engine0 with sta := 0xd43d,
                 memory := wr (wr engine0.memory 1 0x37) 0xd43d 0xAB }

/-- The noise LFSR run free (test bit never asserted) for `n` clocks from its
reset value `0x7ffff8` (the value `initSID` writes into `nLFSR`). -/
def lfsrIter (n : Nat) : Nat := Nat.iterate (nLFSRstep false) n 0x7ffff8

/-- Apply a GF(2)-linear map on 23-bit words, given by its list of columns
(images of the basis bits, least significant first), to a word: xor together
the columns selected by the word's set bits. -/
def applyM : List Nat → Nat → Nat
  | [], _ => 0
  | c :: cs, v => (if v &&& 1 = 1 then c else 0) ^^^ applyM cs (v >>> 1)

/-- Composition of two column-represented linear maps (`A` after `B`). -/
def composeM (A B : List Nat) : List Nat := B.map (applyM A)

/-- Columns of the identity map on 23-bit words. -/
def idM : List Nat := (List.range 23).map (fun i => 1 <<< i)

/-- Columns of the free-running LFSR step, i.e. `nLFSRstep false` on each
basis bit. -/
def stepM : List Nat := (List.range 23).map (fun i => nLFSRstep false (1 <<< i))

/-- Fast exponentiation (square and multiply) of the LFSR step map in column
representation; the fuel bounds the recursion depth. -/
def mpowAux : Nat → Nat → List Nat
  | 0, _ => idM
  | fuel + 1, n =>
      if n = 0 then idM
      else
        let h := mpowAux fuel (n / 2)
        let h2 := composeM h h
        if n % 2 = 1 then composeM stepM h2 else h2

/-- The `n`-th power of the LFSR step map, for every `n < 2^24`. -/
def mpow (n : Nat) : List Nat := mpowAux 24 n

end SIDSpec

namespace SIDSpec

/-! ## Preservation lemmas -/

/-- Fields of the engine state that none of the per-sample functions write:
sample rate, noise amplitude, playtime bookkeeping inputs and the load flags. -/
def FixedFields (t s : SIDState) : Prop :=
  t.backgroundNoise = s.backgroundNoise ∧ t.sampleRate = s.sampleRate ∧
    t.loaded = s.loaded ∧ t.initialized = s.initialized ∧ t.playtime = s.playtime

/-- Like `FixedFields` but without the playtime component (used for
`playFrameTick`, which does advance the playtime). -/
def FixedFieldsNoTime (t s : SIDState) : Prop :=
  t.backgroundNoise = s.backgroundNoise ∧ t.sampleRate = s.sampleRate ∧
    t.loaded = s.loaded ∧ t.initialized = s.initialized

theorem fixedFields_refl (s : SIDState) : FixedFields s s :=
  ⟨rfl, rfl, rfl, rfl, rfl⟩

theorem fixedFields_trans {u t s : SIDState} (h1 : FixedFields u t)
    (h2 : FixedFields t s) : FixedFields u s :=
  ⟨h1.1.trans h2.1, h1.2.1.trans h2.2.1, h1.2.2.1.trans h2.2.2.1,
   h1.2.2.2.1.trans h2.2.2.2.1, h1.2.2.2.2.trans h2.2.2.2.2⟩

theorem playTimerCheck_fixed (s : SIDState) : FixedFields (playTimerCheck s) s := by
  unfold playTimerCheck
  split <;> exact ⟨rfl, rfl, rfl, rfl, rfl⟩

theorem mirrorStores_fixed (s : SIDState) : FixedFields (mirrorStores s) s := by
  unfold mirrorStores
  split
  · split <;> exact ⟨rfl, rfl, rfl, rfl, rfl⟩
  · exact ⟨rfl, rfl, rfl, rfl, rfl⟩

theorem gateTestClear_fixed (s : SIDState) : FixedFields (gateTestClear s) s :=
  ⟨rfl, rfl, rfl, rfl, rfl⟩

theorem playLoop_fixed : ∀ fuel s, FixedFields (playLoop fuel s) s := by
  intro fuel
  induction fuel with
  | zero => intro s; exact fixedFields_refl s
  | succ n ih =>
    intro s
    unfold playLoop
    dsimp only
    split
    · split
      · exact ⟨rfl, rfl, rfl, rfl, rfl⟩
      · split
        · exact ⟨rfl, rfl, rfl, rfl, rfl⟩
        · refine fixedFields_trans (ih _) ?_
          refine fixedFields_trans (gateTestClear_fixed _) ?_
          refine fixedFields_trans (mirrorStores_fixed _) ?_
          exact fixedFields_trans (playTimerCheck_fixed _) ⟨rfl, rfl, rfl, rfl, rfl⟩
    · exact fixedFields_refl s

theorem playCPU_fixed (s : SIDState) : FixedFields (playCPU s) s := by
  unfold playCPU
  split
  · exact fixedFields_trans ⟨rfl, rfl, rfl, rfl, rfl⟩ (playLoop_fixed _ s)
  · exact fixedFields_refl s

set_option maxHeartbeats 2000000 in
theorem sidChannel_fixed (s : SIDState) (num chn SIDaddr : Nat) (f o : ℚ) :
    FixedFields (sidChannel s num chn SIDaddr f o).1 s :=
  ⟨rfl, rfl, rfl, rfl, rfl⟩

set_option maxHeartbeats 2000000 in
theorem sidFilter_fixed (env : JSEnv) (s : SIDState) (num SIDaddr : Nat)
    (f o w : ℚ) : FixedFields (sidFilter env s num SIDaddr f o w).1 s :=
  ⟨rfl, rfl, rfl, rfl, rfl⟩

theorem SIDmix_fixed (env : JSEnv) (num SIDaddr : Nat) (s : SIDState) :
    FixedFields (SIDmix env num SIDaddr s).1 s := by
  unfold SIDmix
  refine fixedFields_trans (sidFilter_fixed _ _ _ _ _ _ _) ?_
  refine fixedFields_trans (sidChannel_fixed _ _ _ _ _ _) ?_
  exact fixedFields_trans (sidChannel_fixed _ _ _ _ _ _) (sidChannel_fixed _ _ _ _ _ _)

theorem playMixChip_fixed (env : JSEnv) (num : Nat) (s : SIDState) :
    FixedFields (playMixChip env num s) s := by
  unfold playMixChip
  dsimp only
  split
  · exact @fixedFields_trans _ ((SIDmix env num (s.SID_address num) s).1) _
      ⟨rfl, rfl, rfl, rfl, rfl⟩ (SIDmix_fixed env num (s.SID_address num) s)
  · exact fixedFields_refl s

theorem playMixAll_fixed (env : JSEnv) (s : SIDState) :
    FixedFields (playMixAll env s) s := by
  unfold playMixAll
  refine fixedFields_trans (playMixChip_fixed _ _ _) ?_
  refine fixedFields_trans (playMixChip_fixed _ _ _) ?_
  exact @fixedFields_trans _ ((SIDmix env 0 0xd400 s).1) _
    ⟨rfl, rfl, rfl, rfl, rfl⟩ (SIDmix_fixed env 0 0xd400 s)

theorem playFrameTick_playtime (s : SIDState) :
    (playFrameTick s).playtime = s.playtime + 1 / s.sampleRate ∧
      FixedFieldsNoTime (playFrameTick s) s := by
  constructor
  · unfold playFrameTick; dsimp only; split <;> rfl
  · unfold playFrameTick; dsimp only; split <;> exact ⟨rfl, rfl, rfl, rfl⟩

/-- The dither term is the only part of `play` that depends on the
`Math.random()` sample: the post-call states coincide and the outputs differ
by exactly `(r1 - r2) · backgroundNoise`. -/
theorem play_diff (env : JSEnv) (r1 r2 : ℚ) (s : SIDState)
    (h1 : s.loaded = true) (h2 : s.initialized = true) :
    (play env r1 s).2 = (play env r2 s).2 ∧
      (play env r1 s).1 - (play env r2 s).1 = (r1 - r2) * s.backgroundNoise := by
  have hbg : (playMixAll env (playCPU (playFrameTick s))).backgroundNoise
      = s.backgroundNoise :=
    ((playMixAll_fixed env _).1).trans
      (((playCPU_fixed _).1).trans (playFrameTick_playtime s).2.1)
  unfold play
  rw [if_neg (by simp [h1, h2]), if_neg (by simp [h1, h2])]
  refine ⟨rfl, ?_⟩
  dsimp only
  rw [hbg]
  ring

/-- `play` touches neither the `loaded` nor the `initialized` flag, and adds
exactly one sample period to the playtime when the engine is playable. -/
theorem play_playtime (env : JSEnv) (r : ℚ) (s : SIDState)
    (h1 : s.loaded = true) (h2 : s.initialized = true) :
    (play env r s).2.playtime = s.playtime + 1 / s.sampleRate ∧
      FixedFieldsNoTime (play env r s).2 s := by
  unfold play
  rw [if_neg (by simp [h1, h2])]
  dsimp only
  have hA := playMixAll_fixed env (playCPU (playFrameTick s))
  have hB := playCPU_fixed (playFrameTick s)
  have hC := playFrameTick_playtime s
  constructor
  · rw [hA.2.2.2.2, hB.2.2.2.2, hC.1]
  · exact ⟨hA.1.trans (hB.1.trans hC.2.1),
      hA.2.1.trans (hB.2.1.trans hC.2.2.1),
      hA.2.2.1.trans (hB.2.2.1.trans hC.2.2.2.1),
      hA.2.2.2.1.trans (hB.2.2.2.1.trans hC.2.2.2.2)⟩

/-- Playtime accumulation over `n` consecutive `play` calls. -/
theorem playN_playtime (env : JSEnv) (rs : Nat → ℚ) :
    ∀ (n : Nat) (s : SIDState), s.loaded = true → s.initialized = true →
      (playN env rs n s).playtime = s.playtime + n / s.sampleRate ∧
        FixedFieldsNoTime (playN env rs n s) s := by
  intro n
  induction n with
  | zero =>
    intro s h1 h2
    constructor
    · show s.playtime = s.playtime + ((0 : Nat) : ℚ) / s.sampleRate
      norm_num
    · exact ⟨rfl, rfl, rfl, rfl⟩
  | succ m ih =>
    intro s h1 h2
    have hp := play_playtime env (rs m) s h1 h2
    have h1b : (play env (rs m) s).2.loaded = true := hp.2.2.2.1.trans h1
    have h2b : (play env (rs m) s).2.initialized = true := hp.2.2.2.2.trans h2
    have ihs := ih (play env (rs m) s).2 h1b h2b
    unfold playN
    constructor
    · rw [ihs.1, hp.1, hp.2.2.1]
      push_cast
      rw [add_div]
      ring
    · exact ⟨ihs.2.1.trans hp.2.1, ihs.2.2.1.trans hp.2.2.1,
        ihs.2.2.2.1.trans hp.2.2.2.1, ihs.2.2.2.2.trans hp.2.2.2.2⟩

end SIDSpec

namespace SIDSpec

/-! ## Claim theorems -/

/-- C10: On an engine on which no load has succeeded (or whose initialization
has not completed), every `play` call returns exactly 0 and leaves the entire
engine state unchanged. -/
theorem C10_play_noop_when_unloaded (env : JSEnv) (rand : ℚ) (s : SIDState)
    (h : s.loaded = false ∨ s.initialized = false) :
    play env rand s = (0, s) := by
  unfold play
  rcases h with h | h <;> rw [if_pos (by simp [h])]

/-- Witness for C10 at a freshly constructed engine. -/
theorem C10_witness :
    (initialState 44100 (1/2000)).loaded = false ∧
      play envC 0 (initialState 44100 (1/2000)) = (0, initialState 44100 (1/2000)) :=
  ⟨rfl, C10_play_noop_when_unloaded envC 0 _ (Or.inl rfl)⟩

/-- C1 (amended): two engines loaded identically evolve through identical
states — the `Math.random()` dither affects only the returned sample, and two
calls with dither samples `r1`, `r2` return values differing by exactly
`(r1 - r2) · backgroundNoise` (zero only if the engine was constructed with a
zero noise amplitude, which the plugin's default 0.0005 is not). -/
theorem C1_deterministic_modulo_dither (env : JSEnv) (r1 r2 : ℚ) (s : SIDState)
    (h1 : s.loaded = true) (h2 : s.initialized = true) :
    (play env r1 s).2 = (play env r2 s).2 ∧
      (play env r1 s).1 - (play env r2 s).1 = (r1 - r2) * s.backgroundNoise :=
  play_diff env r1 r2 s h1 h2

/-- Witness for C1 at the concretely loaded engine. -/
theorem C1_witness :
    loadedState.loaded = true ∧ loadedState.initialized = true ∧
      ((play envC 0 loadedState).2 = (play envC 1 loadedState).2 ∧
        (play envC 0 loadedState).1 - (play envC 1 loadedState).1 =
          (0 - 1) * loadedState.backgroundNoise) :=
  ⟨by decide, by decide,
    C1_deterministic_modulo_dither envC 0 1 loadedState (by decide) (by decide)⟩

/-- Counterexample for C1 as stated: two freshly loaded engines with the
identical 16-byte input, subtune, sample rate and model return different
first samples when their `Math.random()` draws differ (0 versus 1/2), so the
sample sequences are not identical for any window length. -/
theorem C1_counterexample :
    (play envC 0 loadedState).1 ≠ (play envC (1/2) loadedState).1 := by
  have h := play_diff envC 0 (1/2) loadedState (by decide) (by decide)
  intro heq
  rw [heq, sub_self] at h
  have hbgv : loadedState.backgroundNoise = 1/2000 := rfl
  rw [hbgv] at h
  have h2 := h.2
  norm_num at h2

/-- `initFrame` does not touch the stored subtune index. -/
theorem initFrame_subtune (s : SIDState) : (initFrame s).subtune = s.subtune := by
  unfold initFrame
  dsimp only
  split
  · split <;> rfl
  · rfl

/-- `initPlayAddr` does not touch the stored subtune index. -/
theorem initPlayAddr_subtune (s : SIDState) :
    (initPlayAddr s).subtune = s.subtune := by
  unfold initPlayAddr
  dsimp only
  split
  · rfl
  · split <;> rfl

/-- The bounded init loop does not touch the stored subtune index. -/
theorem initLoop_subtune : ∀ fuel s, (initLoop fuel s).subtune = s.subtune := by
  intro fuel
  induction fuel with
  | zero => intro s; rfl
  | succ n ih =>
    intro s
    unfold initLoop
    dsimp only
    split
    · rfl
    · exact (ih _).trans rfl

/-- C3 (amended): `init` performs no clamping at all — it stores the passed
subtune index verbatim, in range or not. -/
theorem C3_init_stores_subtune_verbatim (n : Nat) (s : SIDState)
    (h : s.loaded = true) : (init n s).subtune = n := by
  unfold init
  rw [if_neg (by simp [h])]
  dsimp only [initCPU, initSID]
  rw [initPlayAddr_subtune, initFrame_subtune, initLoop_subtune]

/-- Witness for C3 on the concretely loaded engine. -/
theorem C3_witness :
    loadedState.loaded = true ∧ (init 7 loadedState).subtune = 7 :=
  ⟨by decide, C3_init_stores_subtune_verbatim 7 loadedState (by decide)⟩

/-- Counterexample for C3 as stated: `init 5` on an engine whose file has a
single subtune leaves the engine's current subtune index at 5, violating
`0 ≤ currentSubtune < subtuneCount`. -/
theorem C3_counterexample :
    (init 5 loadedState).subtune = 5 ∧
      ¬ ((init 5 loadedState).subtune < (init 5 loadedState).subtune_amount) :=
  ⟨by decide, by decide⟩

/-- An in-bounds index is present under `List.get?` with its `getD` value. -/
theorem get?_some_of_lt {d : List Nat} {n : Nat} (h : n < d.length) :
    d.get? n = some (d.getD n 0) := by
  induction d generalizing n with
  | nil => simp at h
  | cons x xs ih =>
    cases n with
    | zero => rfl
    | succ m =>
      have hm : m < xs.length := by simpa using h
      simpa using ih hm

/-- C4: load-address resolution.  For every header whose referenced bytes are
present: when the explicit big-endian field at offsets 8–9 is nonzero the
resolved address is that field's value, and when it is zero the resolved
address is the little-endian word formed from the first two bytes of the
embedded data block at the header's data offset. -/
theorem C4_load_address_resolution (d : List Nat) (offs : Nat)
    (h7 : d.get? 7 = some offs) (hoffs : offs + 1 < d.length)
    (hlen : 10 ≤ d.length) :
    (d.getD 8 0 * 256 + d.getD 9 0 ≠ 0 →
        resolveLoadAddr d = JSNum.fin ((d.getD 8 0 * 256 + d.getD 9 0 : Nat) : ℚ)) ∧
    (d.getD 8 0 * 256 + d.getD 9 0 = 0 →
        resolveLoadAddr d =
          JSNum.fin ((d.getD offs 0 + d.getD (offs + 1) 0 * 256 : Nat) : ℚ)) := by
  have h8 : d.get? 8 = some (d.getD 8 0) := get?_some_of_lt (by omega)
  have h9 : d.get? 9 = some (d.getD 9 0) := get?_some_of_lt (by omega)
  have ho1 : d.get? offs = some (d.getD offs 0) := get?_some_of_lt (by omega)
  have ho2 : d.get? (offs + 1) = some (d.getD (offs + 1) 0) :=
    get?_some_of_lt hoffs
  unfold resolveLoadAddr
  rw [h7, h8, h9]
  dsimp only [jsTruthyAdd]
  rw [ho1, ho2]
  dsimp only
  constructor
  · intro hne
    rw [if_pos (by simp only [decide_eq_true_eq]; omega)]
  · intro hz
    rw [if_neg (by simp only [decide_eq_true_eq]; omega)]

/-- Witness for C4: an 18-byte header with a zero explicit field and embedded
little-endian load address `0x5678`. -/
theorem C4_witness :
    resolveLoadAddr
        [0, 0, 0, 0, 0, 0, 0, 16, 0, 0, 0, 0, 0, 0, 0, 1, 0x78, 0x56] =
      JSNum.fin ((0x5678 : Nat) : ℚ) :=
  (C4_load_address_resolution
      [0, 0, 0, 0, 0, 0, 0, 16, 0, 0, 0, 0, 0, 0, 0, 1, 0x78, 0x56] 16
      rfl (by decide) (by decide)).2 rfl

/-- `copyBytes` looks through to its base memory pointwise. -/
theorem copyBytes_congr : ∀ (l : List Nat) (b : Nat) (m1 m2 : Mem) (a : Nat),
    m1 a = m2 a → copyBytes m1 b l a = copyBytes m2 b l a := by
  intro l
  induction l with
  | nil => intro b m1 m2 a h; exact h
  | cons v rest ih =>
    intro b m1 m2 a h
    unfold copyBytes
    apply ih
    by_cases hb : b < 65536
    · rw [if_pos hb, if_pos hb]
      unfold wr
      by_cases hab : a = b
      · rw [if_pos hab, if_pos hab]
      · rw [if_neg hab, if_neg hab]; exact h
    · rw [if_neg hb, if_neg hb]; exact h

/-- C5 (amended): `loadSIDData` builds nothing independently and swaps nothing
atomically — its parsing phase unconditionally resets the chip state and
zeroes the whole 64KB memory image before any validation could occur, so the
resulting memory image is the same whatever engine state (previously loaded
track included) the call started from. -/
theorem C5_load_discards_previous_memory (d : List Nat) (sub : Nat)
    (s1 s2 : SIDState) (a : Nat) (ha : a < 65536) :
    (loadParse d sub s1).memory a = (loadParse d sub s2).memory a := by
  unfold loadParse
  dsimp only [initSID]
  cases h7 : d.get? 7 with
  | none => simp only [h7]; rw [if_pos ha, if_pos ha]
  | some offs =>
    cases hla : resolveLoadAddr d with
    | fin q =>
      simp only [h7, hla]
      exact copyBytes_congr _ _ _ _ _ (by rw [if_pos ha, if_pos ha])
    | pinf => simp only [h7, hla]; rw [if_pos ha, if_pos ha]
    | ninf => simp only [h7, hla]; rw [if_pos ha, if_pos ha]
    | nan => simp only [h7, hla]; rw [if_pos ha, if_pos ha]

/-- Witness for C5: at the concrete address `0x1000`, loading `cex16` over the
already-loaded `loadedState` and over the fresh `engine0` yields the same
memory byte. -/
theorem C5_witness :
    0x1000 < 65536 ∧
      (loadParse cex16 0 loadedState).memory 0x1000 =
        (loadParse cex16 0 engine0).memory 0x1000 :=
  ⟨by decide,
    C5_load_discards_previous_memory cex16 0 loadedState engine0 0x1000 (by decide)⟩

/-- Counterexample for C5 as stated: after a successful load of `cex16`
(program byte `0x60` at `0x1000`), a second `loadSIDData` call with the
truncated 16-byte input `cex16b` mutates the engine: the previous track's
program byte at `0x1000` is gone. -/
theorem C5_counterexample :
    loadedState.memory 0x1000 = 0x60 ∧
      (loadSIDData cex16b 0 loadedState).memory 0x1000 = 0 :=
  ⟨by decide, by decide⟩

/-- C8 (amended): after `n` `play` calls from a playable state with zero
accumulated playtime, the exact elapsed playtime is `n / sampleRate`, and the
accessor `getPlaytime` returns its floor `qFloor (n / sampleRate)` — whole
seconds, not `n / sampleRate` itself. -/
theorem C8_playtime_floor (env : JSEnv) (rs : Nat → ℚ) (n : Nat) (s : SIDState)
    (h1 : s.loaded = true) (h2 : s.initialized = true) (h0 : s.playtime = 0) :
    getPlaytimeExact (playN env rs n s) = (n : ℚ) / s.sampleRate ∧
      getPlaytime (playN env rs n s) = qFloor ((n : ℚ) / s.sampleRate) := by
  have h := (playN_playtime env rs n s h1 h2).1
  rw [h0, zero_add] at h
  constructor
  · exact h
  · unfold getPlaytime
    rw [h]

section RatEval

set_option allowUnsafeReducibility true
attribute [local semireducible] Rat.add Rat.mul Rat.inv Rat.sub Rat.ofScientific

/-- Witness for C8: after 44100 samples at 44100 Hz the accessor returns 1
(and the exact playtime is 1.0 s). -/
theorem C8_witness :
    loadedState.playtime = 0 ∧
      getPlaytimeExact (playN envC (fun _ => 0) 44100 loadedState) =
        (44100 : ℚ) / loadedState.sampleRate ∧
      getPlaytime (playN envC (fun _ => 0) 44100 loadedState) = 1 := by
  refine ⟨by decide, ?_, ?_⟩
  · exact (C8_playtime_floor envC (fun _ => 0) 44100 loadedState
      (by decide) (by decide) (by decide)).1
  · rw [(C8_playtime_floor envC (fun _ => 0) 44100 loadedState
      (by decide) (by decide) (by decide)).2]
    have hsr : loadedState.sampleRate = 44100 := rfl
    rw [hsr]
    decide

/-- Counterexample for C8 as stated: after 22050 samples at 44100 Hz the
accessor returns 0, not 0.5 s — off by half a second, far beyond one sample
period. -/
theorem C8_counterexample :
    getPlaytime (playN envC (fun _ => 0) 22050 loadedState) = 0 ∧
      ¬ (|(0 : ℚ) - 22050 / 44100| ≤ 1 / 44100) := by
  constructor
  · have h := (playN_playtime envC (fun _ => 0) 22050 loadedState
      (by decide) (by decide)).1
    unfold getPlaytime
    rw [h]
    have hp : loadedState.playtime = 0 := by decide
    have hsr : loadedState.sampleRate = 44100 := rfl
    rw [hp, hsr, zero_add]
    decide
  · norm_num
    rw [abs_of_pos (by norm_num : (0 : ℚ) < 1/2)]
    norm_num

end RatEval

set_option maxRecDepth 4000 in
/-- The mask `& 0xd41f` sends every address of the primary chip's mirror area
to the canonical 32-byte window: offset `sta % 32` above `0xd400`. -/
theorem mirror_mask_eq (x : Nat) (hx : x < 0x400) :
    (0xd400 + x) &&& 0xd41f = 0xd400 + (0xd400 + x) % 32 := by
  revert x
  decide

/-- C6 (amended): a store inside `[0xd420, 0xd800)` with I/O mapped in and
the target outside the second and third chip's register windows is mirrored
down to the canonical **32-byte** window: the byte appears at
`sta & 0xd41f = 0xd400 + sta % 32` (offsets 0–31, not 0–28) before the next
CPU step, every other byte is untouched; a store inside a configured second
or third chip's window leaves the memory image entirely untouched. -/
theorem C6_mirror_canonical_window (s : SIDState)
    (h1 : 0xd420 ≤ s.sta) (h2 : s.sta < 0xd800) (h3 : s.memory 1 &&& 3 ≠ 0)
    (hb : s.memory s.sta < 256) :
    (¬ (s.SID_address 1 ≤ s.sta ∧ s.sta < s.SID_address 1 + 0x1f) →
     ¬ (s.SID_address 2 ≤ s.sta ∧ s.sta < s.SID_address 2 + 0x1f) →
      (mirrorStores s).memory (s.sta &&& 0xd41f) = s.memory s.sta ∧
        s.sta &&& 0xd41f = 0xd400 + s.sta % 32 ∧
        (∀ a, a ≠ s.sta &&& 0xd41f → (mirrorStores s).memory a = s.memory a)) ∧
    ((s.SID_address 1 ≤ s.sta ∧ s.sta < s.SID_address 1 + 0x1f) ∨
     (s.SID_address 2 ≤ s.sta ∧ s.sta < s.SID_address 2 + 0x1f) →
      mirrorStores s = s) := by
  constructor
  · intro hw1 hw2
    have hmask : s.sta &&& 0xd41f = 0xd400 + s.sta % 32 := by
      have hx : s.sta - 0xd400 < 0x400 := by omega
      have := mirror_mask_eq (s.sta - 0xd400) hx
      rwa [show 0xd400 + (s.sta - 0xd400) = s.sta from by omega] at this
    unfold mirrorStores
    rw [if_pos ⟨h1, h2, h3⟩, if_pos ⟨hw1, hw2⟩]
    refine ⟨?_, hmask, ?_⟩
    · show wr s.memory (s.sta &&& 0xd41f) (s.memory s.sta) (s.sta &&& 0xd41f)
        = s.memory s.sta
      unfold wr
      rw [if_pos rfl]
      exact Nat.mod_eq_of_lt hb
    · intro a hane
      show wr s.memory (s.sta &&& 0xd41f) (s.memory s.sta) a = s.memory a
      unfold wr
      rw [if_neg hane]
  · intro hw
    unfold mirrorStores
    rw [if_pos ⟨h1, h2, h3⟩, if_neg (by tauto)]

/-- Witness for C6 at a concrete state storing `0xAB` to `0xd43d`. -/
theorem C6_witness :
    (mirrorStores mirrorState).memory (0xd43d &&& 0xd41f) =
        mirrorState.memory 0xd43d ∧
      (0xd43d &&& 0xd41f : Nat) = 0xd400 + 0xd43d % 32 :=
  ⟨((C6_mirror_canonical_window mirrorState (by decide) (by decide) (by decide)
      (by decide)).1 (by decide) (by decide)).1,
   ((C6_mirror_canonical_window mirrorState (by decide) (by decide) (by decide)
      (by decide)).1 (by decide) (by decide)).2.1⟩

/-- Counterexample for C6 as stated: the store to `0xd43d` is mirrored to
`0xd41d = 0xd400 + 29`, an offset outside any 29-byte canonical window
(offsets 0–28), so the mirror target set has 32 offsets, not 29. -/
theorem C6_counterexample :
    (mirrorStores mirrorState).memory 0xd41d ≠ mirrorState.memory 0xd41d ∧
      ¬ ((0xd41d : Nat) < 0xd400 + 29) :=
  ⟨by decide, by decide⟩

set_option maxHeartbeats 4000000 in
/-- Status characterization of one CPU dispatch: `0xff` exactly for the RTS
opcode `0x60` with the stack pointer at the top of page 1, `0xfe` exactly for
the RTI opcode `0x40` in the same situation, and `0` (continue) for every
other instruction. -/
theorem cpuDispatch_status (M : Mem) (PC A X Y SP ST : Nat)
    (hir : M PC < 256) (hsp : SP < 256) :
    (cpuDispatch M PC A X Y SP ST).status =
      (if M PC = 0x60 ∧ SP = 0xff then 0xff
       else if M PC = 0x40 ∧ SP = 0xff then 0xfe else 0) := by
  obtain ⟨ir, hig, hlt⟩ : ∃ ir, M PC = ir ∧ ir < 256 := ⟨M PC, rfl, hir⟩
  unfold cpuDispatch
  dsimp only
  rw [hig]
  interval_cases ir <;>
    first
      | rfl
      | (by_cases hsp2 : 255 ≤ SP
         · have hq : SP = 255 := by omega
           subst hq
           rfl
         · have hne : SP ≠ 255 := by omega
           rw [if_neg hsp2, if_neg hsp2]
           simp only [hne, and_false, if_false]
           rfl)

/-- C7: the CPU single-step returns one of three mutually distinct codes — 0
(`CONTINUE`) for every normally executed instruction, `0xff`
(`RETURN_UNDERFLOW`) exactly when the return instruction RTS executes with
the stack pointer already at the top of its page, and the distinct code
`0xfe` (`INTERRUPT_RETURN_UNDERFLOW`) exactly when the interrupt-return
instruction RTI executes in the same empty-stack situation; every non-return
instruction yields `CONTINUE`. -/
theorem C7_cpu_status_codes (s : SIDState) (hm : ∀ a, s.memory a < 256)
    (hsp : s.SP < 256) :
    (cpuStep s).2 =
      (if s.memory s.PC = 0x60 ∧ s.SP = 0xff then 0xff
       else if s.memory s.PC = 0x40 ∧ s.SP = 0xff then 0xfe else 0) :=
  cpuDispatch_status s.memory s.PC s.A s.X s.Y s.SP s.ST (hm s.PC) hsp

/-- Witness for C7 at a freshly constructed engine (opcode 0 at `PC`: a BRK,
a non-return instruction, hence status `CONTINUE`). -/
theorem C7_witness :
    (∀ a, engine0.memory a < 256) ∧ engine0.SP < 256 ∧ (cpuStep engine0).2 = 0 := by
  refine ⟨fun a => by show (0 : Nat) < 256; decide, by decide, ?_⟩
  rw [C7_cpu_status_codes engine0 (fun a => by show (0 : Nat) < 256; decide)
    (by decide)]
  decide

/-- Bound on the clipped pulse width `pw` (with the xor term `t2`
generalized): whenever `pw0` and `t1` are at most `0xfff0`, so is the final
clipped value, whatever `t2` is. -/
lemma pw_le (pw0 t1 t2 : Nat) (h0 : pw0 ≤ 0xfff0) (h1 : t1 ≤ 0xfff0) :
    (if (if 0 < pw0 ∧ pw0 < t1 then t1 else pw0) > t2 then t2
     else if 0 < pw0 ∧ pw0 < t1 then t1 else pw0) ≤ 0xfff0 := by
  split <;> split <;> omega

/-- Finiteness of the step-interpolated pure-pulse output: whether the
interpolation step is a finite number or `+∞` (the `256 / 0` case), the
clamped result is finite, provided `pw < 0xffff` holds in the infinite case
and the accumulator sits strictly below the pulse edge. -/
lemma pulse_w_finite (step : JSNum) (pwN tmpN : Nat) (hlt : tmpN < pwN)
    (himp : step = JSNum.pinf → pwN < 0xffff)
    (hfin : step = JSNum.pinf ∨ ∃ q, step = JSNum.fin q) :
    (if JSNum.lt
          (JSNum.sub
            (if JSNum.lt (JSNum.fin 0xffff)
                 (JSNum.mul (JSNum.fin ((0xffff - pwN : Nat) : ℚ)) step) then
               JSNum.fin 0xffff
             else JSNum.mul (JSNum.fin ((0xffff - pwN : Nat) : ℚ)) step)
            (JSNum.mul (JSNum.fin ((pwN - tmpN : Nat) : ℚ)) step))
          (JSNum.fin 0) then
        JSNum.fin 0
      else
        JSNum.sub
          (if JSNum.lt (JSNum.fin 0xffff)
               (JSNum.mul (JSNum.fin ((0xffff - pwN : Nat) : ℚ)) step) then
             JSNum.fin 0xffff
           else JSNum.mul (JSNum.fin ((0xffff - pwN : Nat) : ℚ)) step)
          (JSNum.mul (JSNum.fin ((pwN - tmpN : Nat) : ℚ)) step)).isFinite =
      true := by
  rcases hfin with hs | ⟨q, hs⟩
  · subst hs
    have hp := himp rfl
    have hc : (0 : ℚ) < ((0xffff - pwN : Nat) : ℚ) := by
      exact_mod_cast (by omega : 0 < 0xffff - pwN)
    have hd : (0 : ℚ) < ((pwN - tmpN : Nat) : ℚ) := by
      exact_mod_cast (by omega : 0 < pwN - tmpN)
    simp only [JSNum.mul, gt_iff_lt, hc, hd, if_true]
    simp [JSNum.lt, JSNum.sub, JSNum.isFinite]
  · subst hs
    simp only [JSNum.mul]
    split <;> first | rfl | (split <;> rfl)

/-- C2: the voice waveform generator always yields a finite sample for every
reachable input — in particular in the pure-pulse configuration in which the
per-sample phase increment shifted right by 16 bits is zero, where the
source divides `256` by that zero and propagates the resulting infinity
through the edge interpolation before clamping it away.  The only hypothesis
is that the pulse-width low byte is a byte, which holds for every value read
from the masked 64KB memory image. -/
theorem C2_waveform_output_finite (model : ℚ) (wf test ctrl : Nat)
    (aAdd pacc pracc : ℚ) (sMSBnum lfsr : Nat) (pwv : ℚ) (M2 M3 : Nat)
    (hM2 : M2 < 256) :
    (waveformOutput model wf test ctrl aAdd pacc pracc sMSBnum lfsr pwv
        M2 M3).1.isFinite = true := by
  unfold waveformOutput
  by_cases h80 : wf &&& 0x80 ≠ 0
  · rw [if_pos h80]; rfl
  · rw [if_neg h80]
    by_cases h40 : wf &&& 0x40 ≠ 0
    · rw [if_pos h40]
      dsimp only
      by_cases hw : wf = 0x40
      · rw [if_pos hw]
        dsimp only
        by_cases ht : test ≠ 0
        · rw [if_pos ht]; rfl
        · rw [if_neg ht]
          have hfin :
              JSNum.div (JSNum.fin 256) (JSNum.fin ((qShr aAdd 16 : Nat) : ℚ)) =
                  JSNum.pinf ∨
                ∃ q,
                  JSNum.div (JSNum.fin 256)
                      (JSNum.fin ((qShr aAdd 16 : Nat) : ℚ)) =
                    JSNum.fin q := by
            by_cases hq : qShr aAdd 16 = 0
            · left
              rw [hq]
              norm_num [JSNum.div]
            · right
              refine ⟨256 / ((qShr aAdd 16 : Nat) : ℚ), ?_⟩
              simp only [JSNum.div]
              rw [if_neg (by exact_mod_cast hq)]
          have himp :
              JSNum.div (JSNum.fin 256) (JSNum.fin ((qShr aAdd 16 : Nat) : ℚ)) =
                  JSNum.pinf →
                (if (if 0 < (M2 + (M3 &&& 0xf) * 256) * 16 ∧
                        (M2 + (M3 &&& 0xf) * 256) * 16 < qShr aAdd 9 then
                      qShr aAdd 9
                    else (M2 + (M3 &&& 0xf) * 256) * 16) >
                      qShr aAdd 9 ^^^ 0xffff then
                  qShr aAdd 9 ^^^ 0xffff
                 else
                  if 0 < (M2 + (M3 &&& 0xf) * 256) * 16 ∧
                      (M2 + (M3 &&& 0xf) * 256) * 16 < qShr aAdd 9 then
                    qShr aAdd 9
                  else (M2 + (M3 &&& 0xf) * 256) * 16) < 0xffff := by
            intro hs
            by_cases hq : qShr aAdd 16 = 0
            · have h0 : (M2 + (M3 &&& 0xf) * 256) * 16 ≤ 0xfff0 := by
                have hm3 : M3 &&& 0xf ≤ 0xf := Nat.and_le_right
                omega
              have ht1 : qShr aAdd 9 ≤ 0xfff0 := by
                unfold qShr at hq ⊢
                rw [Nat.shiftRight_eq_div_pow] at hq
                rw [Nat.shiftRight_eq_div_pow]
                norm_num at hq ⊢
                omega
              exact Nat.lt_of_le_of_lt
                (pw_le ((M2 + (M3 &&& 0xf) * 256) * 16) (qShr aAdd 9)
                  (qShr aAdd 9 ^^^ 0xffff) h0 ht1) (by norm_num)
            · exfalso
              have hd :
                  JSNum.div (JSNum.fin 256)
                      (JSNum.fin ((qShr aAdd 16 : Nat) : ℚ)) =
                    JSNum.fin (256 / ((qShr aAdd 16 : Nat) : ℚ)) := by
                simp only [JSNum.div]
                rw [if_neg (by exact_mod_cast hq)]
              rw [hd] at hs
              exact JSNum.noConfusion hs
          by_cases hlt :
              qShr pacc 8 <
                (if (if 0 < (M2 + (M3 &&& 0xf) * 256) * 16 ∧
                        (M2 + (M3 &&& 0xf) * 256) * 16 < qShr aAdd 9 then
                      qShr aAdd 9
                    else (M2 + (M3 &&& 0xf) * 256) * 16) >
                      qShr aAdd 9 ^^^ 0xffff then
                  qShr aAdd 9 ^^^ 0xffff
                 else
                  if 0 < (M2 + (M3 &&& 0xf) * 256) * 16 ∧
                      (M2 + (M3 &&& 0xf) * 256) * 16 < qShr aAdd 9 then
                    qShr aAdd 9
                  else (M2 + (M3 &&& 0xf) * 256) * 16)
          · rw [if_pos hlt]
            exact pulse_w_finite _ _ _ hlt himp hfin
          · rw [if_neg hlt]
            rfl
      · rw [if_neg hw]
        repeat' split
        all_goals rfl
    · rw [if_neg h40]
      by_cases h20 : wf &&& 0x20 ≠ 0
      · rw [if_pos h20]
        repeat' split
        all_goals rfl
      · rw [if_neg h20]
        by_cases h10 : wf &&& 0x10 ≠ 0
        · rw [if_pos h10]; rfl
        · rw [if_neg h10]; rfl

/-- Witness for C2 at a concrete pure-pulse input hitting the division by
zero: waveform `0x40`, `test` clear, zero phase increment (so the step is
`256 / 0 = +∞`), accumulator below the pulse edge. -/
theorem C2_witness :
    8 < 256 ∧
      (waveformOutput 0 0x40 0 0x40 0 0 0 0 0 0 8 0).1.isFinite = true :=
  ⟨by decide, C2_waveform_output_finite 0 0x40 0 0x40 0 0 0 0 0 0 8 0 (by decide)⟩

/-! ## LFSR algebra (towards C9) -/

/-- Xor distributes over a left shift. -/
lemma xor_shl (k a b : Nat) : (a ^^^ b) <<< k = (a <<< k) ^^^ (b <<< k) := by
  apply Nat.eq_of_testBit_eq
  intro j
  simp [Nat.testBit_shiftLeft, Nat.testBit_xor, Bool.and_xor_distrib_left]

/-- Xor distributes over a right shift. -/
lemma xor_shr (k a b : Nat) : (a ^^^ b) >>> k = (a >>> k) ^^^ (b >>> k) := by
  apply Nat.eq_of_testBit_eq
  intro j
  simp [Nat.testBit_shiftRight, Nat.testBit_xor]

/-- Xor with 1 increments an even number. -/
lemma even_xor_one (x : Nat) (h : x % 2 = 0) : x ^^^ 1 = x + 1 := by
  have h1 : (x ^^^ 1) / 2 = x / 2 := by rw [Nat.xor_div_two]; simp
  have h2 : (x ^^^ 1) % 2 = 1 := by rw [Nat.xor_mod_two_eq_one]; omega
  omega

/-- The mask `0x7fffff` is reduction modulo `2^23`. -/
lemma and_mask23 (x : Nat) : x &&& 0x7fffff = x % 8388608 := by
  have h : (0x7fffff : Nat) = 2 ^ 23 - 1 := by norm_num
  rw [h, Nat.and_pow_two_sub_one_eq_mod]

/-- Conjunction with a single-bit mask extracts that bit. -/
lemma and_single_bit (t i : Nat) :
    t &&& 2 ^ i = if t.testBit i then 2 ^ i else 0 := by
  apply Nat.eq_of_testBit_eq
  intro k
  by_cases hk : i = k
  · subst hk
    cases h : t.testBit i <;> simp [Nat.testBit_and, Nat.testBit_two_pow, h]
  · cases h : t.testBit i <;>
      simp [Nat.testBit_and, Nat.testBit_two_pow, h, hk, Nat.zero_testBit]

/-- The feedback bit of the LFSR step, rewritten as a GF(2)-linear form in
the state: the xor of bits 22 and 17. -/
lemma bit_eq (t : Nat) :
    (if 0 < ((t &&& 0x400000) ^^^ ((t &&& 0x20000) <<< 5)) then 1 else 0) =
      ((t >>> 22) ^^^ (t >>> 17)) &&& 1 := by
  have h22 : t &&& 0x400000 = if t.testBit 22 then 0x400000 else 0 := by
    have h := and_single_bit t 22
    norm_num at h
    exact h
  have h17 : t &&& 0x20000 = if t.testBit 17 then 0x20000 else 0 := by
    have h := and_single_bit t 17
    norm_num at h
    exact h
  rw [Nat.and_xor_distrib_right, Nat.and_one_is_mod, Nat.and_one_is_mod,
    Nat.shiftRight_eq_div_pow, Nat.shiftRight_eq_div_pow,
    ← Nat.toNat_testBit, ← Nat.toNat_testBit, h22, h17]
  cases h1 : t.testBit 22 <;> cases h2 : t.testBit 17 <;> simp [h1, h2]

/-- Normal form of the free-running LFSR clock: a left shift reduced modulo
`2^23`, xored with the bit-22/bit-17 feedback. -/
lemma step_eq (t : Nat) :
    nLFSRstep false t =
      ((t <<< 1) &&& 0x7fffff) ^^^ (((t >>> 22) ^^^ (t >>> 17)) &&& 1) := by
  unfold nLFSRstep
  dsimp only
  rw [← bit_eq]
  simp only [Bool.false_eq_true, or_false]
  split
  · rw [and_mask23, and_mask23, Nat.shiftLeft_eq]
    norm_num
    rw [even_xor_one (t * 2 % 8388608) (by omega)]
    omega
  · simp

/-- Rearrangement of a fourfold xor. -/
lemma xor_rearrange (w x y z : Nat) :
    (w ^^^ x) ^^^ (y ^^^ z) = (w ^^^ y) ^^^ (x ^^^ z) := by
  rw [Nat.xor_assoc, Nat.xor_assoc]
  congr 1
  rw [← Nat.xor_assoc, ← Nat.xor_assoc, Nat.xor_comm x y]

/-- The free-running LFSR clock is GF(2)-linear in the state. -/
lemma step_linear (a b : Nat) :
    nLFSRstep false (a ^^^ b) = nLFSRstep false a ^^^ nLFSRstep false b := by
  rw [step_eq, step_eq, step_eq, xor_shl, xor_shr, xor_shr,
    Nat.and_xor_distrib_right, Nat.and_xor_distrib_right,
    Nat.and_xor_distrib_right, Nat.and_xor_distrib_right,
    Nat.and_xor_distrib_right, Nat.and_xor_distrib_right,
    xor_rearrange ((a >>> 22) &&& 1) ((b >>> 22) &&& 1)
      ((a >>> 17) &&& 1) ((b >>> 17) &&& 1),
    xor_rearrange]

/-- The LFSR step keeps states inside the 23-bit window. -/
lemma step_lt (t : Nat) : nLFSRstep false t < 8388608 := by
  unfold nLFSRstep
  dsimp only
  calc _ ≤ 0x7fffff := Nat.and_le_right
    _ < 8388608 := by norm_num

/-- The only 23-bit state the LFSR step sends to zero is zero itself. -/
lemma step_ker (t : Nat) (ht : t < 8388608) (h : nLFSRstep false t = 0) :
    t = 0 := by
  rw [step_eq] at h
  have h1 := Nat.xor_eq_zero.mp h
  rw [and_mask23, Nat.shiftLeft_eq] at h1
  norm_num at h1
  omega

/-- The LFSR step is injective on 23-bit states. -/
lemma step_inj (a b : Nat) (ha : a < 8388608) (hb : b < 8388608)
    (h : nLFSRstep false a = nLFSRstep false b) : a = b := by
  have hx : a ^^^ b < 8388608 := by
    have h8 : (8388608 : Nat) = 2 ^ 23 := by norm_num
    rw [h8] at ha hb ⊢
    exact Nat.xor_lt_two_pow ha hb
  have h0 : nLFSRstep false (a ^^^ b) = 0 := by
    rw [step_linear, h, Nat.xor_self]
  exact Nat.xor_eq_zero.mp (step_ker _ hx h0)

/-- A left-to-right xor rearrangement. -/
lemma xor_left_comm' (a b c : Nat) : a ^^^ (b ^^^ c) = b ^^^ (a ^^^ c) := by
  rw [← Nat.xor_assoc, Nat.xor_comm a b, Nat.xor_assoc]

/-- The column-selection conditional is linear in the selecting bit. -/
lemma ite_bit_xor (c x y : Nat) :
    (if (x ^^^ y) &&& 1 = 1 then c else 0) =
      (if x &&& 1 = 1 then c else 0) ^^^ (if y &&& 1 = 1 then c else 0) := by
  rw [Nat.and_xor_distrib_right]
  have hx : x &&& 1 ≤ 1 := Nat.and_le_right
  have hy : y &&& 1 ≤ 1 := Nat.and_le_right
  rcases (by omega : x &&& 1 = 0 ∨ x &&& 1 = 1) with hx1 | hx1 <;>
    rcases (by omega : y &&& 1 = 0 ∨ y &&& 1 = 1) with hy1 | hy1 <;>
    rw [hx1, hy1] <;> simp

/-- Applying a column map to zero gives zero. -/
lemma applyM_zero (cs : List Nat) : applyM cs 0 = 0 := by
  induction cs with
  | nil => rfl
  | cons c cs ih => simp [applyM, ih]

/-- A column map is GF(2)-linear in its argument. -/
lemma applyM_linear (cs : List Nat) (x y : Nat) :
    applyM cs (x ^^^ y) = applyM cs x ^^^ applyM cs y := by
  induction cs generalizing x y with
  | nil => simp [applyM]
  | cons c cs ih =>
    simp only [applyM]
    rw [xor_shr, ih, ite_bit_xor]
    exact xor_rearrange _ _ _ _

/-- A column map commutes with the selection conditional. -/
lemma applyM_ite (A : List Nat) (P : Prop) [Decidable P] (c : Nat) :
    applyM A (if P then c else 0) = if P then applyM A c else 0 := by
  split
  · rfl
  · exact applyM_zero A

/-- Applying a composition is composing the applications. -/
lemma applyM_compose (A B : List Nat) (v : Nat) :
    applyM (composeM A B) v = applyM A (applyM B v) := by
  unfold composeM
  induction B generalizing v with
  | nil => simp [applyM, applyM_zero]
  | cons c cs ih =>
    simp only [List.map_cons, applyM]
    rw [ih, applyM_linear, applyM_ite]

/-- A nonzero number carries its top bit. -/
lemma testBit_log2_self (v : Nat) (hv : v ≠ 0) : v.testBit v.log2 = true := by
  have h1 : 2 ^ v.log2 ≤ v := Nat.log2_self_le hv
  have h2 : v < 2 ^ (v.log2 + 1) := Nat.lt_log2_self
  have hd : v / 2 ^ v.log2 = 1 := by
    apply Nat.div_eq_of_lt_le
    · simpa using h1
    · have h3 : 2 ^ (v.log2 + 1) = 2 * 2 ^ v.log2 := by
        rw [Nat.pow_succ]; ring
      omega
  rw [Nat.testBit_to_div_mod, hd]
  decide

/-- Every nonzero 23-bit word splits as its top bit xored with a smaller
remainder below that bit. -/
lemma top_bit_split (v : Nat) (hv : v ≠ 0) (hlt : v < 8388608) :
    ∃ i r, i < 23 ∧ r < 2 ^ i ∧ 2 ^ i ≤ v ∧ v = 2 ^ i ^^^ r := by
  refine ⟨v.log2, v ^^^ 2 ^ v.log2, ?_, ?_, Nat.log2_self_le hv, ?_⟩
  · rw [Nat.log2_lt hv]
    norm_num
    exact hlt
  · apply Nat.lt_pow_two_of_testBit
    intro i hi
    rcases Nat.eq_or_lt_of_le hi with h | h
    · rw [Nat.testBit_xor, Nat.testBit_two_pow, ← h, testBit_log2_self v hv]
      simp
    · rw [Nat.testBit_xor, Nat.testBit_two_pow]
      have hvi : v.testBit i = false := by
        apply Nat.testBit_lt_two_pow
        calc v < 2 ^ (v.log2 + 1) := Nat.lt_log2_self
          _ ≤ 2 ^ i := Nat.pow_le_pow_right (by norm_num) h
      rw [hvi]
      simp
      omega
  · have h := Nat.xor_cancel_left (2 ^ v.log2) v
    calc v = 2 ^ v.log2 ^^^ (2 ^ v.log2 ^^^ v) := h.symm
      _ = 2 ^ v.log2 ^^^ (v ^^^ 2 ^ v.log2) := by rw [Nat.xor_comm (2 ^ v.log2) v]

/-- Extension principle: two GF(2)-linear maps that agree on zero and on the
23 basis bits agree on every 23-bit word. -/
lemma linext (f g : Nat → Nat) (hz : f 0 = g 0)
    (hbase : ∀ i, i < 23 → f (2 ^ i) = g (2 ^ i))
    (hf : ∀ x y, f (x ^^^ y) = f x ^^^ f y)
    (hg : ∀ x y, g (x ^^^ y) = g x ^^^ g y) :
    ∀ v, v < 8388608 → f v = g v := by
  intro v
  induction v using Nat.strong_induction_on with
  | _ v ih =>
    intro hv
    by_cases h0 : v = 0
    · subst h0; exact hz
    · obtain ⟨i, r, hi, hr, hle, hvir⟩ := top_bit_split v h0 hv
      have hrv : r < v := lt_of_lt_of_le hr hle
      have hr23 : r < 8388608 := by
        have h23 : (2:Nat) ^ i ≤ 2 ^ 22 := Nat.pow_le_pow_right (by norm_num) (by omega)
        have := lt_of_lt_of_le hr h23
        norm_num at this
        omega
      calc f v = f (2 ^ i ^^^ r) := by rw [← hvir]
        _ = f (2 ^ i) ^^^ f r := hf _ _
        _ = g (2 ^ i) ^^^ g r := by rw [hbase i hi, ih r hrv hr23]
        _ = g (2 ^ i ^^^ r) := (hg _ _).symm
        _ = g v := by rw [← hvir]

/-- The identity column map is the identity on 23-bit words. -/
lemma applyM_idM (v : Nat) (hv : v < 8388608) : applyM idM v = v := by
  refine linext (applyM idM) (fun x => x) ?_ ?_ ?_ ?_ v hv
  · exact applyM_zero idM
  · intro i hi
    interval_cases i <;> decide
  · exact applyM_linear idM
  · intro x y; rfl

/-- The step column map agrees with the LFSR step on 23-bit words. -/
lemma applyM_stepM (v : Nat) (hv : v < 8388608) :
    applyM stepM v = nLFSRstep false v := by
  refine linext (applyM stepM) (nLFSRstep false) ?_ ?_ ?_ ?_ v hv
  · rw [applyM_zero]; decide
  · intro i hi
    interval_cases i <;> decide
  · exact applyM_linear stepM
  · exact step_linear

/-- Iterating the step keeps states inside the 23-bit window. -/
lemma iter_lt (n v : Nat) (hv : v < 8388608) :
    Nat.iterate (nLFSRstep false) n v < 8388608 := by
  induction n generalizing v with
  | zero => simpa using hv
  | succ n ih =>
    rw [Function.iterate_succ_apply]
    exact ih _ (step_lt v)

/-- Correctness of the fast exponentiation of the step map against plain
iteration, for every exponent below the fuel bound. -/
lemma mpowAux_ok : ∀ fuel n, n < 2 ^ fuel → ∀ v, v < 8388608 →
    applyM (mpowAux fuel n) v = Nat.iterate (nLFSRstep false) n v := by
  intro fuel
  induction fuel with
  | zero =>
    intro n hn v hv
    have h0 : n = 0 := by
      have h1 : n < 1 := by simpa using hn
      omega
    subst h0
    exact applyM_idM v hv
  | succ fuel ih =>
    intro n hn v hv
    by_cases h0 : n = 0
    · subst h0
      have heq : mpowAux (fuel + 1) 0 = idM := by rw [mpowAux]; rfl
      rw [heq]
      exact applyM_idM v hv
    · have heq : mpowAux (fuel + 1) n =
          (if n % 2 = 1 then
            composeM stepM (composeM (mpowAux fuel (n / 2)) (mpowAux fuel (n / 2)))
          else composeM (mpowAux fuel (n / 2)) (mpowAux fuel (n / 2))) := by
        conv_lhs => rw [mpowAux]
        rw [if_neg h0]
      rw [heq]
      have hn2 : n / 2 < 2 ^ fuel := by
        have h3 : (2:Nat) ^ (fuel + 1) = 2 * 2 ^ fuel := by
          rw [Nat.pow_succ]; ring
        omega
      have hmid : ∀ w, w < 8388608 →
          applyM (composeM (mpowAux fuel (n / 2)) (mpowAux fuel (n / 2))) w =
            Nat.iterate (nLFSRstep false) (n / 2 + n / 2) w := by
        intro w hw
        rw [applyM_compose, ih (n / 2) hn2 w hw,
          ih (n / 2) hn2 _ (iter_lt _ _ hw), Function.iterate_add_apply]
      by_cases hpar : n % 2 = 1
      · rw [if_pos hpar, applyM_compose, hmid v hv,
          applyM_stepM _ (iter_lt _ _ hv)]
        have hiter : Nat.iterate (nLFSRstep false) n v =
            Nat.iterate (nLFSRstep false) ((n / 2 + n / 2) + 1) v := by
          congr 1
          omega
        rw [hiter, Function.iterate_succ_apply']
      · rw [if_neg hpar, hmid v hv]
        congr 1
        omega

/-- Correctness of the packaged power map for every exponent below `2^24`. -/
lemma mpow_ok (n : Nat) (hn : n < 16777216) (v : Nat) (hv : v < 8388608) :
    applyM (mpow n) v = Nat.iterate (nLFSRstep false) n v := by
  refine mpowAux_ok 24 n ?_ v hv
  norm_num
  exact hn

/-- The LFSR orbit stays inside the 23-bit window. -/
lemma lfsrIter_lt (n : Nat) : lfsrIter n < 8388608 :=
  iter_lt n 0x7ffff8 (by norm_num)

/-- Decomposing a point of the orbit as further iteration of an earlier one. -/
lemma lfsrIter_add (m k : Nat) :
    lfsrIter (m + k) = Nat.iterate (nLFSRstep false) m (lfsrIter k) := by
  unfold lfsrIter
  exact Function.iterate_add_apply _ m k _

/-- A return to the reset value propagates forward: the whole orbit repeats
with that period. -/
lemma period_forward (T : Nat) (hT : lfsrIter T = lfsrIter 0) (n : Nat) :
    lfsrIter (n + T) = lfsrIter n := by
  rw [lfsrIter_add, hT, ← lfsrIter_add, Nat.add_zero]

/-- Injectivity of the step cancels a common prefix: equal orbit points
translate back to the start. -/
lemma period_backward : ∀ i d, lfsrIter (i + d) = lfsrIter i →
    lfsrIter d = lfsrIter 0 := by
  intro i
  induction i with
  | zero => intro d h; simpa using h
  | succ i ih =>
    intro d h
    apply ih
    apply step_inj _ _ (lfsrIter_lt _) (lfsrIter_lt _)
    have e1 : lfsrIter (i + 1 + d) = nLFSRstep false (lfsrIter (i + d)) := by
      have h2 : i + 1 + d = 1 + (i + d) := by omega
      rw [h2, lfsrIter_add, Function.iterate_one]
    have e2 : lfsrIter (i + 1) = nLFSRstep false (lfsrIter i) := by
      have h2 : i + 1 = 1 + i := by omega
      rw [h2, lfsrIter_add, Function.iterate_one]
    rw [← e1, ← e2]
    exact h

/-- Multiples of a period are periods. -/
lemma period_mul_add (a : Nat) (ha : lfsrIter a = lfsrIter 0) :
    ∀ k m, lfsrIter (m + k * a) = lfsrIter m := by
  intro k
  induction k with
  | zero => intro m; simp
  | succ k ih =>
    intro m
    have h1 : m + (k + 1) * a = (m + k * a) + a := by ring
    rw [h1, period_forward a ha, ih]

/-- Periods are closed under remainder. -/
lemma period_mod (a b : Nat) (ha : lfsrIter a = lfsrIter 0)
    (hb : lfsrIter b = lfsrIter 0) : lfsrIter (b % a) = lfsrIter 0 := by
  by_cases h0 : a = 0
  · subst h0; simpa using hb
  · have h2 := period_mul_add a ha (b / a) (b % a)
    rw [Nat.mod_add_div'] at h2
    rw [← h2, hb]

/-- Periods are closed under gcd. -/
lemma period_gcd : ∀ a b, lfsrIter a = lfsrIter 0 → lfsrIter b = lfsrIter 0 →
    lfsrIter (Nat.gcd a b) = lfsrIter 0 := by
  intro a b
  induction a, b using Nat.gcd.induction with
  | H0 n => intro _ h; simpa using h
  | H1 m n hm ih =>
    intro hPm hPn
    rw [Nat.gcd_rec]
    exact ih (period_mod m n hPm hPn) hPm

/-- The divisors of `2^23 − 1 = 47 × 178481` (both factors prime). -/
lemma divisors_N (g : Nat) (h : g ∣ 8388607) :
    g = 1 ∨ g = 47 ∨ g = 178481 ∨ g = 8388607 := by
  have hp : Nat.Prime 47 := by norm_num
  have hq : Nat.Prime 178481 := by norm_num
  have hN : (8388607 : Nat) = 47 * 178481 := by norm_num
  rw [hN] at h
  by_cases h47 : 47 ∣ g
  · obtain ⟨e, rfl⟩ := h47
    have he : e ∣ 178481 :=
      (Nat.mul_dvd_mul_iff_left (by norm_num : (0:Nat) < 47)).mp h
    rcases Nat.Prime.eq_one_or_self_of_dvd hq e he with h1 | h1
    · subst h1; right; left; norm_num
    · subst h1; right; right; right; norm_num
  · have hco : Nat.Coprime g 47 :=
      Nat.Coprime.symm ((Nat.Prime.coprime_iff_not_dvd hp).mpr h47)
    have hg : g ∣ 178481 := hco.dvd_of_dvd_mul_left h
    rcases Nat.Prime.eq_one_or_self_of_dvd hq g hg with h1 | h1
    · left; exact h1
    · right; right; left; exact h1

set_option maxRecDepth 40000 in
/-- The orbit returns to the reset value after the full period `2^23 − 1`
(computed through the fast power map). -/
lemma lfsr_N_return : lfsrIter 8388607 = lfsrIter 0 := by
  have h := mpow_ok 8388607 (by norm_num) 0x7ffff8 (by norm_num)
  unfold lfsrIter
  rw [← h]
  decide

set_option maxRecDepth 40000 in
/-- One step leaves the reset value. -/
lemma lfsr_no_1 : lfsrIter 1 ≠ lfsrIter 0 := by decide

set_option maxRecDepth 40000 in
/-- The orbit is away from the reset value after `47` steps. -/
lemma lfsr_no_47 : lfsrIter 47 ≠ lfsrIter 0 := by decide

set_option maxRecDepth 40000 in
/-- The orbit is away from the reset value after `178481` steps (computed
through the fast power map). -/
lemma lfsr_no_178481 : lfsrIter 178481 ≠ lfsrIter 0 := by
  have h := mpow_ok 178481 (by norm_num) 0x7ffff8 (by norm_num)
  unfold lfsrIter
  rw [← h]
  decide

/-- C9: the 23-bit noise LFSR with feedback taps 22 and 17, stepped
free-running (test bit never asserted) from its non-zero reset value
`0x7ffff8`, never revisits a state within any window shorter than the
maximal period `2^23 − 1 = 8388607`: any two distinct orbit points closer
than the full period apart are distinct states. -/
theorem C9_lfsr_full_period (i j : Nat) (hij : i < j)
    (hwin : j - i < 8388607) : lfsrIter i ≠ lfsrIter j := by
  intro heq
  have hT : lfsrIter (j - i) = lfsrIter 0 := by
    apply period_backward i (j - i)
    rw [show i + (j - i) = j from by omega]
    exact heq.symm
  have hPg : lfsrIter (Nat.gcd (j - i) 8388607) = lfsrIter 0 :=
    period_gcd _ _ hT lfsr_N_return
  have hdvd : Nat.gcd (j - i) 8388607 ∣ 8388607 := Nat.gcd_dvd_right _ _
  have hle : Nat.gcd (j - i) 8388607 ≤ j - i :=
    Nat.gcd_le_left _ (by omega)
  rcases divisors_N _ hdvd with h1 | h1 | h1 | h1 <;> rw [h1] at hPg hle
  · exact lfsr_no_1 hPg
  · exact lfsr_no_47 hPg
  · exact lfsr_no_178481 hPg
  · omega

/-- Witness for C9 at the first two orbit points: the reset state differs
from its immediate successor. -/
theorem C9_witness :
    0 < 1 ∧ (1:Nat) - 0 < 8388607 ∧ lfsrIter 0 ≠ lfsrIter 1 :=
  ⟨by decide, by decide, C9_lfsr_full_period 0 1 (by decide) (by decide)⟩

end SIDSpec
